import Mathlib

/-!
Shallow embedding of the sensor-noise correction engine of the
fit-file-analyser repository (src/utils/SensorDataFilter.ts, the
fixSensorNoise modules and the zone-distribution engine), together with
theorems checking the specification's testable properties against it.

Modelling conventions
* JavaScript numbers are modelled by `ℚ`.  Every comparison and arithmetic
  operation appearing in the embedded code is exact at the inputs used by
  the theorems below, so no floating-point rounding issue is being papered
  over.  `Math.sqrt` (which appears only in the moving-average filter's
  standard deviation and in the correlation filter's ratio standard
  deviation) is kept symbolic: the value `√q` is represented by the
  constructor `JsVal.sqr q`, and the single comparison the code performs
  against such a value is decided by the algebraically equivalent rational
  inequality (squaring both sides, see `ltMeanMinusTwoSqrt` and
  `corrBelowRangeMin`).
* A record (`DataPoint`) is an association list from field name to
  `JsVal`; `getF` and `setF` model JavaScript property read and write
  (write overwrites in place when the key exists, else appends).
* `null` and `undefined` are collapsed into `JsVal.undef`: every embedded
  code path checks the two together (`=== null || === undefined`) and
  treats them identically.  `JsVal.other` stands for a present value that
  is neither a number nor a boolean (e.g. a non-numeric string): it fails
  `typeof === 'number'` checks and all numeric comparisons, like a
  NaN-producing coercion in JavaScript.
* A JavaScript `throw` (reached only by the zone-distribution engine on an
  empty series) is modelled by `Option.none`.
-/

inductive JsVal where
  | undef
  | num (q : ℚ)
  | bool (b : Bool)
  | sqr (q : ℚ)
  | other
deriving DecidableEq, Repr

/-- A data point: an association list from field name to value
(`interface DataPoint { [key: string]: any }`). -/
abbrev DataPoint := List (String × JsVal)

/-- Property read `point[k]`: first binding of the key, `undefined` if absent. -/
def getF (r : DataPoint) (k : String) : JsVal :=
  match r with
  | [] => .undef
  | (k', v) :: rest => if k' = k then v else getF rest k

/-- Property write `point[k] = v`: overwrite in place if the key exists,
otherwise append the new key (JavaScript object insertion order). -/
def setF (r : DataPoint) (k : String) (v : JsVal) : DataPoint :=
  match r with
  | [] => [(k, v)]
  | (k', v') :: rest => if k' = k then (k, v) :: rest else (k', v') :: setF rest k v

def isNumV : JsVal → Bool
  | .num _ => true
  | _ => false

def isUndefV : JsVal → Bool
  | .undef => true
  | _ => false

def numOpt : JsVal → Option ℚ
  | .num q => some q
  | _ => none

/-- Extract the rational of a numeric value; `0` on the non-numeric
constructors, which the embedded code only reaches behind numeric guards. -/
def numOf : JsVal → ℚ
  | .num q => q
  | _ => 0

/-- JavaScript truthiness for the values this model can store. -/
def jsTruthy : JsVal → Bool
  | .undef => false
  | .num q => decide (q ≠ 0)
  | .bool b => b
  | .sqr q => decide (q ≠ 0)
  | .other => true

/-- `Math.abs` on the rational model (defined by cases so that it reduces
in the kernel, unlike the lattice `|·|`). -/
def qAbs (q : ℚ) : ℚ := if q < 0 then -q else q

/-- `Math.max` on the rational model. -/
def qMax (a b : ℚ) : ℚ := if a ≤ b then b else a

/-- `Math.min` on the rational model. -/
def qMin (a b : ℚ) : ℚ := if a ≤ b then a else b

/-- `v < c` with JavaScript coercion: false unless `v` is a number
(`undefined`/NaN comparisons are false; the embedded code never compares a
`null` directly, it always filters it out first). -/
def valLt (v : JsVal) (c : ℚ) : Bool :=
  match v with
  | .num q => decide (q < c)
  | _ => false

/-- `v > c` with JavaScript coercion, same conventions as `valLt`. -/
def valGt (v : JsVal) (c : ℚ) : Bool :=
  match v with
  | .num q => decide (c < q)
  | _ => false

/-- The record array the filters operate on. -/
abbrev DataArr := List DataPoint

/-- `arr[i]` (the loops below only index within bounds). -/
def getRec (arr : DataArr) (i : Nat) : DataPoint := arr.getD i []

/-- `arr[i][k] = v`. -/
def updAt (arr : DataArr) (i : Nat) (k : String) (v : JsVal) : DataArr :=
  arr.set i (setF (getRec arr i) k v)

/-! ## Field accessor (`getValue` helpers of the fixSensorNoise modules)

`detectSensorNoise` and the basic `fixSensorNoise` use a five-variant list
and return at the *first present* variant; the advanced `fixSensorNoise`
uses a three-variant list and skips present-but-non-numeric variants. -/

/-- `fieldBase.replace(' ', '_')` — JavaScript `String.replace` with a string
pattern replaces only the first occurrence. -/
def replaceFirst (c d : Char) (s : String) : String :=
  let rec go : List Char → List Char
    | [] => []
    | x :: xs => if x = c then d :: xs else x :: go xs
  String.mk (go s.toList)

/-- The five spelling variants tried by `detectSensorNoise.getValue` and the
basic `fixSensorNoise.getValue`. -/
def fieldVariationsFive (fieldBase : String) : List String :=
  [fieldBase,
   replaceFirst ' ' '_' fieldBase,
   replaceFirst '_' ' ' fieldBase,
   fieldBase.toLower,
   fieldBase.toUpper]

/-- The three spelling variants tried by the advanced `fixSensorNoise`
helpers. -/
def fieldVariationsThree (fieldBase : String) : List String :=
  [fieldBase,
   replaceFirst ' ' '_' fieldBase,
   replaceFirst '_' ' ' fieldBase]

/-- `getValue` of `detectSensorNoise` / the basic `fixSensorNoise`: stop at
the first variant that is *present* (`!== undefined`); yield its value when
it is a number and `undefined` otherwise (the loop `return`s either way). -/
def getValueFirstPresent (point : DataPoint) (fieldBase : String) : Option ℚ :=
  go point (fieldVariationsFive fieldBase)
where
  go (point : DataPoint) : List String → Option ℚ
    | [] => none
    | v :: rest =>
      match getF point v with
      | .undef => go point rest
      | w => numOpt w

/-- `getValue` of the advanced `fixSensorNoise`: return the first variant
that is present *with a numeric value*, skipping non-numeric ones. -/
def getValueFirstNumeric (point : DataPoint) (fieldBase : String) : Option ℚ :=
  go point (fieldVariationsThree fieldBase)
where
  go (point : DataPoint) : List String → Option ℚ
    | [] => none
    | v :: rest =>
      match getF point v with
      | .num q => some q
      | _ => go point rest

/-- `setValue` of the advanced `fixSensorNoise`: write into the first
variant already present, else create the canonical key. -/
def setValueFirstPresent (point : DataPoint) (fieldBase : String) (value : ℚ)
    (variations : List String) : DataPoint :=
  match variations with
  | [] => setF point fieldBase (.num value)
  | v :: rest =>
    if getF point v ≠ .undef then setF point v (.num value)
    else setValueFirstPresent point fieldBase value rest

/-! ## Zone distribution engine (`calculateZoneDistribution`) -/

/-- A time-series point (`TimeSeriesPoint` of trainingSession.ts).  The
`timestamp : Date` field is not read by any modelled function and is
omitted. -/
structure TimeSeriesPoint where
  timer_time : ℚ
  value : ℚ
deriving DecidableEq, Repr

/-- A zone's upper bound: a number or `Infinity`. -/
inductive ZMax where
  | fin (q : ℚ)
  | inf
deriving DecidableEq, Repr

/-- `IZone { min, max, name }`. -/
structure IZone where
  zmin : ℚ
  zmax : ZMax
  name : String
deriving DecidableEq, Repr

structure IZoneDistributionItem where
  zone : IZone
  duration : ℚ
  percentage : ℚ
deriving DecidableEq, Repr

/-- `value >= zone.min && value <= zone.max` (both ends inclusive). -/
def zoneContains (z : IZone) (v : ℚ) : Bool :=
  decide (z.zmin ≤ v) && (match z.zmax with | .fin m => decide (v ≤ m) | .inf => true)

/-- One `zones.forEach` pass of `calculateZoneDistribution`: add the current
duration to every matching zone's accumulator (keyed by zone *name*, as in
the source's `zoneTime` object; the `if (!zoneTime[name]) zoneTime[name]=0`
initialisation collapses into a total map with default 0). -/
def zoneBump (zones : List IZone) (v d : ℚ) (fn : String → ℚ) : String → ℚ :=
  zones.foldl
    (fun fn zone =>
      if zoneContains zone v then
        fun n => if n = zone.name then fn n + d else fn n
      else fn)
    fn

/-- The accumulation walk of `calculateZoneDistribution`: state is
`(previousDuration, zoneTime)`, starting at `(0, empty)`; each point adds
`point.timer_time - previousDuration` to every zone containing its value.
Note the first point contributes its absolute `timer_time`, since
`previousDuration` starts at `0`. -/
def zoneWalk (zones : List IZone) (timeSeries : List TimeSeriesPoint) :
    ℚ × (String → ℚ) :=
  timeSeries.foldl
    (fun st point =>
      let currentDuration := point.timer_time - st.1
      (point.timer_time, zoneBump zones point.value currentDuration st.2))
    (0, fun _ => 0)

/-- `calculateZoneDistribution`.  On the empty series the source evaluates
`timeSeries[timeSeries.length - 1].timer_time`, i.e. reads a property of
`undefined` and throws a `TypeError`; this is modelled by `none`. -/
def calculateZoneDistribution (timeSeries : List TimeSeriesPoint)
    (zones : List IZone) : Option (List IZoneDistributionItem) :=
  match timeSeries with
  | [] => none
  | p0 :: rest =>
    let zoneTime := (zoneWalk zones (p0 :: rest)).2
    let totalDuration := ((p0 :: rest).getLastD p0).timer_time - p0.timer_time
    some ((zones.map IZone.name).map (fun zoneName =>
      let duration := zoneTime zoneName
      let percentage := duration / totalDuration * 100
      ⟨(zones.find? (fun z => z.name = zoneName)).getD ⟨0, .inf, zoneName⟩,
       duration, percentage⟩))

/-- The heart-rate zone table of zones.ts (used as a concrete zone table by
witnesses). -/
def hrZones : List IZone :=
  [⟨0, .fin 137, "Zone 1 - Recovery"⟩,
   ⟨138, .fin 153, "Zone 2 - Endurance"⟩,
   ⟨154, .fin 163, "Zone 3 - Aerobic"⟩,
   ⟨164, .fin 172, "Zone 4 - Threshold"⟩,
   ⟨173, .inf, "Zone 5 - VO2 Max"⟩]

/-! ## Threshold strategy (`cleanSensorDataWithThresholds`)

Constants fixed in the source: `dropThreshold = 0.5`,
`minStableReading = 10`, reference stability bound `0.2`. -/

/-- The detection guard of the threshold filter at index `i` and field
`field`, on the current working array: both values present, a drop of more
than 50% below the previous value to below `minStableReading = 10`, both
reference values present, and the reference changed by less than 20%
(`Math.abs(refC − refP) / Math.max(0.1, Math.abs(refP)) < 0.2`).  Every
non-mutating `continue`/failed-`if` path of the source is a `false` here. -/
def thresholdDetects (arr : DataArr) (referenceField field : String) (i : Nat) : Bool :=
  (match getF (getRec arr i) field, getF (getRec arr (i-1)) field with
   | .num c, .num p => decide (c < p * (1 - 1/2)) && decide (c < 10)
   | _, _ => false)
  &&
  (match getF (getRec arr i) referenceField, getF (getRec arr (i-1)) referenceField with
   | .num rc, .num rp => decide (qAbs (rc - rp) / qMax (1/10) (qAbs rp) < 1/5)
   | _, _ => false)

/-- The `while` loop searching the next index at which `field` is present
and at least `minStable`; `arr.length` when none exists.  (Recursion is on
the structural fuel `arr.length - i`, so the definition reduces in the
kernel.) -/
def findNextStableAux (arr : DataArr) (field : String) (minStable : ℚ) :
    Nat → Nat → Nat
  | 0, _ => arr.length
  | fuel+1, i =>
    if i < arr.length then
      let v := getF (getRec arr i) field
      if v = .undef || valLt v minStable then findNextStableAux arr field minStable fuel (i+1)
      else i
    else arr.length

def findNextStable (arr : DataArr) (field : String) (minStable : ℚ) (i : Nat) : Nat :=
  findNextStableAux arr field minStable (arr.length - i) i

/-- The interpolation fill `for (let j = i; j < nextStableIdx; j++)`. -/
def thresholdFill (field : String) (prevQ stepQ : ℚ) (i next : Nat)
    (arr : DataArr) : DataArr :=
  (List.range' i (next - i)).foldl
    (fun a j =>
      let a1 := updAt a j (field ++ "_original") (getF (getRec a j) field)
      let a2 := updAt a1 j field (.num (prevQ + stepQ * ((j : ℚ) - ((i : ℚ) - 1))))
      updAt a2 j (field ++ "_corrected") (.bool true))
    arr

/-- The repair body run when `thresholdDetects` fires: annotate, look for
the next stable reading, then interpolate toward it
(`gap = nextStableIdx − (i − 1)`, `step = (next − previous)/gap`), or hold
the previous value when no future stable point exists. -/
def thresholdRepair (field : String) (arr : DataArr) (i : Nat) : DataArr :=
  let current := getF (getRec arr i) field
  let previous := getF (getRec arr (i-1)) field
  let arr1 := updAt arr i (field ++ "_original") current
  let arr2 := updAt arr1 i (field ++ "_corrected") (.bool true)
  let next := findNextStable arr2 field 10 (i+1)
  if next < arr2.length then
    let prevQ := numOf previous
    let nextQ := numOf (getF (getRec arr2 next) field)
    let gap : ℚ := (next : ℚ) - ((i : ℚ) - 1)
    thresholdFill field prevQ ((nextQ - prevQ) / gap) i next arr2
  else
    updAt arr2 i field previous

/-- One `(i, field)` step of the threshold filter's nested loops. -/
def thresholdFieldStep (referenceField : String) (arr : DataArr) (i : Nat)
    (field : String) : DataArr :=
  if thresholdDetects arr referenceField field i then thresholdRepair field arr i else arr

def cleanSensorDataWithThresholds (data : DataArr) (rateFields : List String)
    (referenceField : String) : DataArr :=
  if data.length = 0 then [] else
  (List.range' 1 (data.length - 1)).foldl
    (fun arr i => rateFields.foldl (fun a f => thresholdFieldStep referenceField a i f) arr)
    data

/-! ## Moving-average strategy (`applyMovingAverageFilter`) -/

def listMean (l : List ℚ) : ℚ := l.sum / l.length

/-- `Σ (v − m)²` over a window; divided by the window length it is the
variance whose square root the source stores as `field_stddev`. -/
def listSqDevSum (l : List ℚ) (m : ℚ) : ℚ := (l.map (fun v => (v - m)^2)).sum

/-- The valid numeric values of `field` in the centred window around `i`
(`slice(windowStart, windowEnd+1)` then filtering out `null`, `undefined`
and NaN). -/
def mvAvgWindow (arr : DataArr) (field : String) (windowSize : Nat) (i : Nat) : List ℚ :=
  let wStart := i - windowSize / 2
  let wEnd := min (arr.length - 1) (i + windowSize / 2)
  ((arr.drop wStart).take (wEnd + 1 - wStart)).filterMap (fun d => numOpt (getF d field))

/-- First pass: store `field_mean` and `field_stddev` (the latter kept
symbolic as `JsVal.sqr variance`) on every point with a nonempty window. -/
def mvAvgPass1 (field : String) (windowSize : Nat) (arr : DataArr) : DataArr :=
  (List.range arr.length).foldl
    (fun a i =>
      let w := mvAvgWindow a field windowSize i
      if w.length = 0 then a else
      let mean := listMean w
      let a1 := updAt a i (field ++ "_mean") (.num mean)
      updAt a1 i (field ++ "_stddev") (.sqr (listSqDevSum w mean / w.length)))
    arr

/-- Decides `value < mean − 2·stdDev` where `stdDev = √v`, `v ≥ 0`, via the
equivalent rational test (square both sides of `2√v < mean − value`). -/
def ltMeanMinusTwoSqrt (value mean v : ℚ) : Bool :=
  decide (0 < mean - value ∧ 4 * v < (mean - value)^2)

/-- Second pass: replace low-side outliers (more than two standard
deviations below the local mean) by the local mean. -/
def mvAvgPass2 (field : String) (arr : DataArr) : DataArr :=
  (List.range arr.length).foldl
    (fun a i =>
      match getF (getRec a i) field, getF (getRec a i) (field ++ "_mean"),
            getF (getRec a i) (field ++ "_stddev") with
      | .num value, .num mean, .sqr v =>
        if ltMeanMinusTwoSqrt value mean v then
          let a1 := updAt a i (field ++ "_original") (.num value)
          let a2 := updAt a1 i field (.num mean)
          updAt a2 i (field ++ "_corrected") (.bool true)
        else a
      | _, _, _ => a)
    arr

def applyMovingAverageFilter (data : DataArr) (fields : List String)
    (windowSize : Nat) : DataArr :=
  if data.length = 0 then [] else
  fields.foldl (fun res f => mvAvgPass2 f (mvAvgPass1 f windowSize res)) data

/-! ## Correlation strategy (`correlationBasedFiltering`)

The first pass also computes a Pearson coefficient `correlations[field]`,
but that binding is never read afterwards in the source, so the unused
(irrational-valued) computation is omitted from the state. -/

/-- The `(reference, field)` pairs at which both values are valid positive
numbers. -/
def validPairs (data : DataArr) (field referenceField : String) : List (ℚ × ℚ) :=
  data.filterMap (fun d =>
    match getF d field, getF d referenceField with
    | .num x, .num r => if 0 < x ∧ 0 < r then some (r, x) else none
    | _, _ => none)

/-- The per-field ratio statistics.  The source materialises
`{min := max 0 (ratioMean − 2.5·sd), max := ratioMean + 2.5·sd,
mean := ratioMean}` where `sd = √rvar`; only `.min` (one comparison,
decided exactly by `corrBelowRangeMin`) and `.mean` are ever read, so the
pair `(ratioMean, ratioVariance)` that determines them is stored. -/
structure ValidRange where
  rmean : ℚ
  rvar : ℚ
deriving DecidableEq, Repr

/-- `validRanges[field]`: defined only when more than 10 valid pairs exist. -/
def validRangeFor (data : DataArr) (field referenceField : String) : Option ValidRange :=
  let pairs := validPairs data field referenceField
  if 10 < pairs.length then
    let ratios := pairs.filterMap (fun p => if 0 < p.1 then some (p.2 / p.1) else none)
    if ratios.length ≠ 0 then
      let rmean := listMean ratios
      some ⟨rmean, listSqDevSum ratios rmean / ratios.length⟩
    else none
  else none

/-- Decides `value < refValue · max 0 (rmean − 2.5·√rvar) · 0.8` for the
states in which the source evaluates it (`refValue > 0`, `rvar ≥ 0`), via
the squared rational equivalent with `A = refValue · 0.8`. -/
def corrBelowRangeMin (value refValue rmean rvar : ℚ) : Bool :=
  let A := refValue * (4/5)
  decide (value < 0) ||
  decide (0 < A * rmean - value ∧ (5/2 * A)^2 * rvar < (A * rmean - value)^2)

/-- The `isDropout` disjunction of the second pass (lines 246–260 of the
source), evaluated on the working array. -/
def corrIsDropout (vr : Option ValidRange) (arr : DataArr) (i : Nat)
    (field : String) (value refValue : ℚ) : Bool :=
  (decide (value < 5) && decide (3 < refValue)) ||
  (match vr with
   | some r => corrBelowRangeMin value refValue r.rmean r.rvar && decide (2 < refValue)
   | none => false) ||
  (decide (0 < i) && valGt (getF (getRec arr (i-1)) field) 10 &&
     decide (value < numOf (getF (getRec arr (i-1)) field) * (7/10)) &&
     decide (1 < refValue)) ||
  (decide (field = "stroke_rate") && decide (7 < refValue) && decide (value < 15)) ||
  (decide (field = "watt") && decide (5 < refValue) && decide (value < 50))

/-- Full detection guard at `(i, field)`: reference present, numeric and
positive; value present and numeric; `isDropout` true. -/
def corrDetects (vrF : String → Option ValidRange) (arr : DataArr)
    (referenceField field : String) (i : Nat) : Bool :=
  match getF (getRec arr i) referenceField with
  | .num r =>
    decide (0 < r) &&
    (match getF (getRec arr i) field with
     | .num v => corrIsDropout (vrF field) arr i field v r
     | _ => false)
  | _ => false

/-- The fallback expected value `refValue * (ratioMean || 1)` raised to the
field-specific floors (`stroke_rate`: 20 when `refValue > 5` else 10;
`watt`: 50 when `refValue > 3` else 20). -/
def expectedValueFor (field : String) (refValue : ℚ) (vr : Option ValidRange) : ℚ :=
  let base := refValue * (match vr with
    | some r => if r.rmean = 0 then 1 else r.rmean
    | none => 1)
  if field = "stroke_rate" then qMax base (if 5 < refValue then 20 else 10)
  else if field = "watt" then qMax base (if 3 < refValue then 50 else 20)
  else base

/-- The backward scan for the nearest valid (positive numeric) value at or
below the given index; returns the value and its index. -/
def findPrevValid (arr : DataArr) (field : String) : Nat → Option (ℚ × Nat)
  | 0 =>
    match getF (getRec arr 0) field with
    | .num q => if 0 < q then some (q, 0) else none
    | _ => none
  | j+1 =>
    match getF (getRec arr (j+1)) field with
    | .num q => if 0 < q then some (q, j+1) else findPrevValid arr field j
    | _ => findPrevValid arr field j

/-- The forward scan for the nearest valid value at or above the given
index (fuel `arr.length - j`). -/
def findNextValidAux (arr : DataArr) (field : String) :
    Nat → Nat → Option (ℚ × Nat)
  | 0, _ => none
  | fuel+1, j =>
    if j < arr.length then
      match getF (getRec arr j) field with
      | .num q => if 0 < q then some (q, j) else findNextValidAux arr field fuel (j+1)
      | _ => findNextValidAux arr field fuel (j+1)
    else none

def findNextValid (arr : DataArr) (field : String) (j : Nat) : Option (ℚ × Nat) :=
  findNextValidAux arr field (arr.length - j) j

/-- The repair body of the correlation filter: annotate, then interpolate
between the nearest valid neighbours (`gap = nI − pI`, and the source's
`(prevValue+nextValue)/2` branch when `gap ≤ 0`), use a single-sided
neighbour when only one exists, or fall back to `expectedValueFor`. -/
def corrRepair (vrF : String → Option ValidRange) (arr : DataArr) (i : Nat)
    (field : String) (value refValue : ℚ) : DataArr :=
  let arr1 := updAt arr i (field ++ "_original") (.num value)
  let arr2 := updAt arr1 i (field ++ "_corrected") (.bool true)
  let expectedValue := expectedValueFor field refValue (vrF field)
  let prevFound := if i = 0 then none else findPrevValid arr2 field (i-1)
  let nextFound := findNextValid arr2 field (i+1)
  let newVal : ℚ :=
    match prevFound, nextFound with
    | some (pv, pI), some (nv, nI) =>
      let gap : ℚ := (nI : ℚ) - (pI : ℚ)
      if 0 < gap then pv + (nv - pv) / (gap + 1) * ((i : ℚ) - (pI : ℚ))
      else (pv + nv) / 2
    | some (pv, _), none => pv
    | none, some (nv, _) => nv
    | none, none => expectedValue
  updAt arr2 i field (.num newVal)

/-- One `(i, field)` step of the correlation filter's second pass. -/
def corrStep (vrF : String → Option ValidRange) (referenceField : String)
    (arr : DataArr) (i : Nat) (field : String) : DataArr :=
  if corrDetects vrF arr referenceField field i then
    match getF (getRec arr i) field, getF (getRec arr i) referenceField with
    | .num v, .num r => corrRepair vrF arr i field v r
    | _, _ => arr
  else arr

def correlationBasedFiltering (data : DataArr) (targetFields : List String)
    (referenceField : String) (windowSize : Nat) : DataArr :=
  if data.length = 0 then [] else
  let vrF : String → Option ValidRange := fun f => validRangeFor data f referenceField
  (List.range data.length).foldl
    (fun arr i => targetFields.foldl (fun a f => corrStep vrF referenceField a i f) arr)
    data

/-- `cleanSensorData`: the "best available method" wrapper, which always
chooses the correlation-based filter (default window size 30). -/
def cleanSensorData (data : DataArr) (fields : List String)
    (referenceField : String) : DataArr :=
  correlationBasedFiltering data fields referenceField 30

/-! ## Kalman strategy (`KalmanFilter`, `applyKalmanFilter`) -/

/-- The scalar Kalman filter's state: estimate `x`, error covariance `P`,
process noise `Q`, measurement noise `R`. -/
structure KalmanState where
  x : ℚ
  P : ℚ
  Q : ℚ
  R : ℚ
deriving DecidableEq, Repr

/-- `predict()`: inflate the covariance by the process noise. -/
def KalmanState.predict (s : KalmanState) : KalmanState :=
  ⟨s.x, s.P + s.Q, s.Q, s.R⟩

/-- `update(measurement, true)`: Kalman gain, state and covariance update.
(`update(m, false)` returns the state untouched and is inlined at the call
site below.) -/
def KalmanState.updateValid (s : KalmanState) (m : ℚ) : KalmanState :=
  let K := s.P / (s.P + s.R)
  ⟨s.x + K * (m - s.x), (1 - K) * s.P, s.Q, s.R⟩

/-- The validity check of `applyKalmanFilter` at one point, negated (true =
the measurement is treated as invalid): missing/zero value, a drop of more
than `dropThreshold` below the previous written value, a sustained drop to
below half the value two points back, or reference speed above 1 while the
raw value is below 10.  `p1`/`p2` are the records written at `i−1`/`i−2`
(`none` when out of range). -/
def kalmanInvalid (dropThreshold : ℚ) (r : DataPoint) (p1 p2 : Option DataPoint)
    (field : String) : Bool :=
  let value := getF r field
  let base : Bool :=
    match value with
    | .num v =>
      if v = 0 then true
      else
        match p1 with
        | some r1 =>
          (match getF r1 field with
           | .num prev =>
             if 0 < prev then
               decide (v < prev * (1 - dropThreshold)) ||
               (match p2 with
                | some r2 =>
                  valGt (getF r2 field) 0 &&
                    decide (v < numOf (getF r2 field) * (1/2))
                | none => false)
             else false
           | _ => false)
        | none => false
    | _ => true
  let speedTrig : Bool :=
    (match getF r "enhanced_speed" with
     | .num s => decide (1 < s)
     | _ => false) && valLt value 10
  base || speedTrig

/-- The per-field pass of `applyKalmanFilter`.  It walks the array left to
right carrying the filter state and the two previously *written* records
(the source indexes `result[i-1]`/`result[i-2]`, which may already hold
corrected values), and returns the written records together with the
filter state after each point — the latter so that theorems can speak
about the covariance trace; the record output is exactly the source's. -/
def kalmanLoop (field : String) (dropThreshold : ℚ) :
    KalmanState → Option DataPoint → Option DataPoint → List DataPoint →
    List DataPoint × List KalmanState
  | _, _, _, [] => ([], [])
  | st, p1, p2, r :: rest =>
    let st1 := st.predict
    let invalid := kalmanInvalid dropThreshold r p1 p2 field
    let st2 := if invalid then st1 else st1.updateValid (numOf (getF r field))
    let filtered := st2.x
    let r' :=
      if invalid then
        let a := setF r (field ++ "_original") (getF r field)
        let b := setF a field (.num filtered)
        let c := setF b (field ++ "_filtered") (.num filtered)
        setF c (field ++ "_corrected") (.bool true)
      else
        setF r (field ++ "_filtered") (.num filtered)
    let rec2 := kalmanLoop field dropThreshold st2 (some r') p1 rest
    (r' :: rec2.1, st2 :: rec2.2)

/-- `applyKalmanFilter`: one filter per field, seeded from the first valid
positive value of the *original* data (`new KalmanFilter(v, 1, 0.05, 1.0)`,
or `(0, 10, 0.05, 1.0)` when none exists). -/
def applyKalmanFilter (data : DataArr) (fields : List String)
    (dropThreshold : ℚ) : DataArr :=
  if data.length = 0 then [] else
  fields.foldl
    (fun result field =>
      let init : KalmanState :=
        match data.find? (fun d =>
          match getF d field with
          | .num q => decide (0 < q)
          | _ => false) with
        | some d => ⟨numOf (getF d field), 1, 1/20, 1⟩
        | none => ⟨0, 10, 1/20, 1⟩
      (kalmanLoop field dropThreshold init none none result).1)
    data

/-! ## Dispatcher (`filterSensorData`) and utilities -/

inductive FilterMethod where
  | threshold
  | movingAverage
  | correlation
  | kalman
  | auto
deriving DecidableEq, Repr

/-- The options object of `filterSensorData`; `none` models an absent
optional property. -/
structure FilterOptions where
  method : FilterMethod
  fields : Option (List String)
  referenceField : Option String
  dropThreshold : Option ℚ
  windowSize : Option Nat
deriving Repr

/-- `x || d` for an optional string (the empty string is falsy). -/
def orDefaultS (o : Option String) (d : String) : String :=
  match o with
  | some s => if s = "" then d else s
  | none => d

/-- `x || d` for an optional count (`0` is falsy). -/
def orDefaultN (o : Option Nat) (d : Nat) : Nat :=
  match o with
  | some n => if n = 0 then d else n
  | none => d

/-- `x || d` for an optional number (`0` is falsy). -/
def orDefaultQ (o : Option ℚ) (d : ℚ) : ℚ :=
  match o with
  | some q => if q = 0 then d else q
  | none => d

def filterSensorData (data : DataArr) (options : FilterOptions) : DataArr :=
  let fields := options.fields.getD ["stroke_rate", "watt"]
  let referenceField := orDefaultS options.referenceField "enhanced_speed"
  match options.method with
  | .threshold => cleanSensorDataWithThresholds data fields referenceField
  | .movingAverage => applyMovingAverageFilter data fields (orDefaultN options.windowSize 5)
  | .correlation =>
    correlationBasedFiltering data fields referenceField (orDefaultN options.windowSize 30)
  | .kalman => applyKalmanFilter data fields (orDefaultQ options.dropThreshold (1/2))
  | .auto => correlationBasedFiltering data fields referenceField 30

/-- `isCorrectedPoint`: truthiness of the `field_corrected` side key. -/
def isCorrectedPoint (data : DataArr) (index : Nat) (field : String) : Bool :=
  if index < data.length then jsTruthy (getF (getRec data index) (field ++ "_corrected"))
  else false

/-! ## Per-strategy detection predicates on the input data

`thresholdDetects`/`corrDetects` above are the literal guards of the loop
bodies, evaluated on the working array; the following two express the
moving-average and Kalman conditions on the input data (the first
moving-average pass writes only `_mean`/`_stddev` keys, so its statistics
over the input equal those the second pass reads), and `anyStrategyDetects`
collects all four — the premise "no point satisfies any strategy's
drop/threshold detection condition". -/

def mvAvgDetects (data : DataArr) (field : String) (windowSize : Nat) (i : Nat) : Bool :=
  let w := mvAvgWindow data field windowSize i
  if w.length = 0 then false else
  match getF (getRec data i) field with
  | .num value =>
    ltMeanMinusTwoSqrt value (listMean w) (listSqDevSum w (listMean w) / w.length)
  | _ => false

def kalmanDetects (data : DataArr) (field : String) (dropThreshold : ℚ) (i : Nat) : Bool :=
  kalmanInvalid dropThreshold (getRec data i)
    (if 0 < i then some (getRec data (i-1)) else none)
    (if 1 < i then some (getRec data (i-2)) else none) field

def anyStrategyDetects (data : DataArr) (fields : List String)
    (referenceField : String) (windowSize : Nat) (dropThreshold : ℚ) : Bool :=
  (List.range data.length).any (fun i => fields.any (fun f =>
    thresholdDetects data referenceField f i ||
    mvAvgDetects data f windowSize i ||
    corrDetects (fun g => validRangeFor data g referenceField) data referenceField f i ||
    kalmanDetects data f dropThreshold i))

/-! ## Advanced `fixSensorNoise` (the contextual strategy)

Embedding of the third `fixSensorNoise` variant (the one with correlation,
adaptive thresholds and phase analysis).  `Math.sqrt` feeds the Pearson
denominator and the window standard deviation here, and its result flows
into stored replacement values, so the embedding is parametric in the
square-root function `sqrtFn`; every theorem about this module below holds
for an arbitrary `sqrtFn`, in particular for the true square root. -/

/-- The workout phases of `detectWorkoutPhase` (`'main'` is `mainPhase`). -/
inductive WorkoutPhase where
  | warmup
  | mainPhase
  | cooldown
  | interval
  | recovery
deriving DecidableEq, Repr

inductive TrendDir where
  | up
  | down
  | stable
deriving DecidableEq, Repr

inductive IntensityLevel where
  | low
  | medium
  | high
deriving DecidableEq, Repr

/-- `NoiseDetectionOptions` after merging with the defaults (the source
merges a partial options object over `defaultOptions`; theorems quantify
over the merged result). -/
structure NoiseOptions where
  maxStrokeRateDrop : ℚ
  maxWattDrop : ℚ
  speedStabilityThreshold : ℚ
  minValidStrokeRate : ℚ
  minValidWatt : ℚ
  analysisWindowSize : Nat
  minValidPointsInWindow : Nat
  multiFieldCorrelation : Bool
  adaptiveThresholds : Bool
  temporalSmoothing : Bool
  outlierDetection : Bool
  contextualAwareness : Bool
deriving Repr

/-- The advanced module's default options. -/
def defaultNoiseOptions : NoiseOptions :=
  ⟨50, 60, 15, 10, 30, 5, 3, true, true, true, true, true⟩

structure EnhancedWindowAnalysis where
  validValues : List ℚ
  averageValue : ℚ
  medianValue : ℚ
  isConsistentlyLow : Bool
  hasRecovery : Bool
  trendDirection : TrendDir
  standardDeviation : ℚ
  confidenceLevel : ℚ
  correlationWithSpeed : ℚ
  workoutPhase : WorkoutPhase
  intensityLevel : IntensityLevel
deriving Repr

/-- `calculateCorrelation`: Pearson coefficient, `0` for unequal lengths,
fewer than 3 points, or a zero denominator. -/
def calculateCorrelation (sqrtFn : ℚ → ℚ) (values1 values2 : List ℚ) : ℚ :=
  if values1.length ≠ values2.length ∨ values1.length < 3 then 0
  else
    let mean1 := listMean values1
    let mean2 := listMean values2
    let numerator := ((values1.zip values2).map (fun p => (p.1 - mean1) * (p.2 - mean2))).sum
    let denominator := sqrtFn (listSqDevSum values1 mean1 * listSqDevSum values2 mean2)
    if denominator = 0 then 0 else numerator / denominator

/-- `Math.round(x)` (half rounds toward `+∞`). -/
def jsRound (q : ℚ) : ℤ := ⌊q + 1/2⌋

/-- `Math.round(x * 10) / 10`. -/
def roundTo1 (q : ℚ) : ℚ := (jsRound (q * 10) : ℚ) / 10

/-- `detectWorkoutPhase`: position-based warmup/cooldown, then local
speed/heart-rate volatility for interval/recovery, else main.  The source's
`Math.floor(totalPoints * 0.05)` is `totalPoints / 20` here.  The guard
`!fixedData[i] || !fixedData[i-1]` skips exactly `i = 0` for in-bounds
indices (records are always truthy objects). -/
def detectWorkoutPhase (opts : NoiseOptions) (arr : DataArr) (centerIndex : Nat) :
    WorkoutPhase :=
  if !opts.contextualAwareness then .mainPhase else
  let totalPoints := arr.length
  let relativePosition : ℚ := (centerIndex : ℚ) / (totalPoints : ℚ)
  if relativePosition < 3/20 then .warmup
  else if 17/20 < relativePosition then .cooldown
  else
    let windowSize := min 20 (totalPoints / 20)
    let lo := centerIndex - windowSize
    let hi := min totalPoints (centerIndex + windowSize)
    let counts := (List.range' lo (hi - lo)).foldl
      (fun (cnt : Nat × Nat) i =>
        if i = 0 then cnt else
        let speed := getValueFirstNumeric (getRec arr i) "enhanced_speed"
        let hr := getValueFirstNumeric (getRec arr i) "heart_rate"
        let prevSpeed := getValueFirstNumeric (getRec arr (i-1)) "enhanced_speed"
        let prevHr := getValueFirstNumeric (getRec arr (i-1)) "heart_rate"
        let c1 := match speed, prevSpeed with
          | some s, some ps => if 0 < ps ∧ ps * (1/10) < qAbs (s - ps) then cnt.1 + 1 else cnt.1
          | _, _ => cnt.1
        let c2 := match hr, prevHr with
          | some h, some ph => if 10 < qAbs (h - ph) then cnt.2 + 1 else cnt.2
          | _, _ => cnt.2
        (c1, c2))
      (0, 0)
    let variationThreshold : ℚ := (windowSize : ℚ) * (3/10)
    if variationThreshold < (counts.1 : ℚ) ∨ variationThreshold < (counts.2 : ℚ) then
      let currentSpeed := getValueFirstNumeric (getRec arr centerIndex) "enhanced_speed"
      let speeds := ((arr.drop (centerIndex - 10)).take ((centerIndex + 10) - (centerIndex - 10))).filterMap
        (fun p => getValueFirstNumeric p "enhanced_speed")
      let avgSpeed := if speeds.length ≠ 0 then listMean speeds else currentSpeed.getD 0
      match currentSpeed with
      | some cs => if cs ≠ 0 ∧ avgSpeed * (11/10) < cs then .interval else .recovery
      | none => .recovery
    else .mainPhase

/-- `enhancedAnalyzeWindow`. -/
def enhancedAnalyzeWindow (sqrtFn : ℚ → ℚ) (opts : NoiseOptions) (arr : DataArr)
    (centerIndex : Nat) (fieldName : String) (minValidValue : ℚ) :
    EnhancedWindowAnalysis :=
  let windowSize := opts.analysisWindowSize
  let lo := centerIndex - windowSize
  let hi := min (arr.length - 1) (centerIndex + windowSize)
  let collected := (List.range' lo (hi + 1 - lo)).foldl
    (fun (acc : List ℚ × List ℚ) i =>
      if i = centerIndex then acc else
      match getValueFirstNumeric (getRec arr i) fieldName,
            getValueFirstNumeric (getRec arr i) "enhanced_speed" with
      | some v, some s =>
        if minValidValue ≤ v ∧ 0 < s then (acc.1 ++ [v], acc.2 ++ [s]) else acc
      | _, _ => acc)
    ([], [])
  let validValues := collected.1
  let speedValues := collected.2
  let averageValue := if validValues.length ≠ 0 then listMean validValues else minValidValue * 2
  let sortedValues := List.insertionSort (· ≤ ·) validValues
  let medianValue :=
    if sortedValues.length ≠ 0 then sortedValues.getD (sortedValues.length / 2) 0
    else averageValue
  let variance :=
    if 1 < validValues.length then
      listSqDevSum validValues averageValue / ((validValues.length : ℚ) - 1)
    else 0
  let standardDeviation := sqrtFn variance
  let correlationWithSpeed :=
    if opts.multiFieldCorrelation ∧ 3 ≤ validValues.length then
      calculateCorrelation sqrtFn validValues speedValues
    else 0
  let confidenceLevel := qMin 1 ((validValues.length : ℚ) / qMax 1 ((windowSize : ℚ) * (4/5)))
  let workoutPhase := detectWorkoutPhase opts arr centerIndex
  let avgSpeed := if speedValues.length ≠ 0 then listMean speedValues else 0
  let intensityLevel : IntensityLevel :=
    if avgSpeed < 5 then .low else if avgSpeed < 10 then .medium else .high
  let lowValues := validValues.filter (fun v => decide (v < minValidValue * 2))
  let isConsistentlyLow :=
    if validValues.length ≠ 0 then
      decide ((validValues.length : ℚ) * (3/5) < (lowValues.length : ℚ))
    else false
  let hasRecovery := (List.range' (centerIndex + 1) (hi + 1 - (centerIndex + 1))).any
    (fun i =>
      match getValueFirstNumeric (getRec arr i) fieldName with
      | some v => decide (minValidValue * (3/2) ≤ v)
      | none => false)
  let trendDirection :=
    if 4 ≤ validValues.length then
      let n := validValues.length
      let meanIndex := ((List.range n).map (fun i => (i : ℚ))).sum / (n : ℚ)
      let idxVals := (List.range n).zip validValues
      let numerator := (idxVals.map (fun p => ((p.1 : ℚ) - meanIndex) * (p.2 - averageValue))).sum
      let denom := (idxVals.map (fun p => ((p.1 : ℚ) - meanIndex)^2)).sum
      let slope := if denom ≠ 0 then numerator / denom else 0
      let trendStrength := if 0 < averageValue then qAbs slope / averageValue * 100 else 0
      if 5 < trendStrength then (if 0 < slope then TrendDir.up else TrendDir.down)
      else TrendDir.stable
    else TrendDir.stable
  ⟨validValues, averageValue, medianValue, isConsistentlyLow, hasRecovery,
   trendDirection, standardDeviation, confidenceLevel, correlationWithSpeed,
   workoutPhase, intensityLevel⟩

structure AdaptiveThresholds where
  dropThreshold : ℚ
  minValue : ℚ
deriving DecidableEq, Repr

/-- `getAdaptiveThresholds`: phase, intensity and confidence multipliers on
the base drop threshold and minimum valid value. -/
def getAdaptiveThresholds (opts : NoiseOptions) (analysis : EnhancedWindowAnalysis)
    (fieldName : String) : AdaptiveThresholds :=
  let baseDrop := if fieldName = "stroke rate" then opts.maxStrokeRateDrop else opts.maxWattDrop
  let baseMin := if fieldName = "stroke rate" then opts.minValidStrokeRate else opts.minValidWatt
  if !opts.adaptiveThresholds then ⟨baseDrop, baseMin⟩
  else
    let m1 : ℚ × ℚ :=
      match analysis.workoutPhase with
      | .warmup => (13/10, 7/10)
      | .cooldown => (13/10, 7/10)
      | .interval => (7/10, 12/10)
      | .recovery => (12/10, 8/10)
      | .mainPhase => (1, 1)
    let m2 : ℚ × ℚ :=
      match analysis.intensityLevel with
      | .high => (m1.1 * (8/10), m1.2 * (13/10))
      | .low => (m1.1 * (12/10), m1.2 * (8/10))
      | .medium => m1
    let dropMultiplier := if analysis.confidenceLevel < 1/2 then m2.1 * (11/10) else m2.1
    ⟨baseDrop * dropMultiplier, baseMin * m2.2⟩

/-- `calculateAdvancedReplacement`: median base, correlation-weighted speed
projection, temporal smoothing, phase multiplier, minimum clamp, rounding
to one decimal. -/
def calculateAdvancedReplacement (opts : NoiseOptions) (arr : DataArr)
    (centerIndex : Nat) (fieldName : String) (analysis : EnhancedWindowAnalysis) : ℚ :=
  let rv0 := analysis.medianValue
  let rv1 :=
    if opts.multiFieldCorrelation ∧ 3/10 < qAbs analysis.correlationWithSpeed then
      match getValueFirstNumeric (getRec arr centerIndex) "enhanced_speed" with
      | some currentSpeed =>
        if currentSpeed ≠ 0 then
          let windowSize := opts.analysisWindowSize
          let lo := centerIndex - windowSize
          let hi := min (arr.length - 1) (centerIndex + windowSize)
          let speedValues := (List.range' lo (hi + 1 - lo)).foldl
            (fun (acc : List ℚ) i =>
              if i = centerIndex then acc else
              match getValueFirstNumeric (getRec arr i) "enhanced_speed" with
              | some s => if 0 < s then acc ++ [s] else acc
              | none => acc)
            []
          let avgSpeed := if speedValues.length ≠ 0 then listMean speedValues else currentSpeed
          if 0 < avgSpeed then
            let speedRatio := currentSpeed / avgSpeed
            let correlationAdjustment :=
              analysis.averageValue * speedRatio * qAbs analysis.correlationWithSpeed
            rv0 * (7/10) + correlationAdjustment * (3/10)
          else rv0
        else rv0
      | none => rv0
    else rv0
  let rv2 :=
    if opts.temporalSmoothing then
      let prevValue :=
        if 0 < centerIndex then getValueFirstNumeric (getRec arr (centerIndex - 1)) fieldName
        else none
      let nextValue :=
        if centerIndex < arr.length - 1 then
          getValueFirstNumeric (getRec arr (centerIndex + 1)) fieldName
        else none
      match prevValue, nextValue with
      | some pv, some nv =>
        let temporalAverage := (pv + nv) / 2
        let smoothingWeight := qMin (2/5) analysis.confidenceLevel
        rv1 * (1 - smoothingWeight) + temporalAverage * smoothingWeight
      | _, _ => rv1
    else rv1
  let rv3 :=
    match analysis.workoutPhase with
    | .interval => rv2 * (11/10)
    | .recovery => rv2 * (9/10)
    | _ => rv2
  let thresholds := getAdaptiveThresholds opts analysis fieldName
  roundTo1 (qMax rv3 thresholds.minValue)

/-- Bump one phase counter (`phaseAnalysis[phase]++`). -/
def bumpPhase (g : WorkoutPhase → Nat) (p : WorkoutPhase) : WorkoutPhase → Nat :=
  fun q => if q = p then g q + 1 else g q

/-- The loop state of the advanced `fixSensorNoise`: working array and the
accumulated statistics. -/
structure FixState where
  arr : DataArr
  noisyPoints : Nat
  fixedStrokeRate : Nat
  fixedWatt : Nat
  phaseAnalysis : WorkoutPhase → Nat

/-- The stroke-rate branch of the main loop at index `i`: when the drop
condition (on adaptive thresholds) fires, write the replacement and report
the fix as `some` analysed workout phase (the source sets
`pointWasFixed = true`, `fixedFields['stroke rate']++` and
`phaseAnalysis[analysis.workoutPhase]++` together in this branch). -/
def strokeBranch (sqrtFn : ℚ → ℚ) (opts : NoiseOptions) (arr : DataArr) (i : Nat) :
    DataArr × Option WorkoutPhase :=
  let currentPoint := getRec arr i
  let prevPoint := getRec arr (i-1)
  match getValueFirstNumeric currentPoint "stroke rate",
        getValueFirstNumeric prevPoint "stroke rate" with
  | some c, some p =>
    if 0 < p then
      let analysis := enhancedAnalyzeWindow sqrtFn opts arr i "stroke rate" opts.minValidStrokeRate
      let thresholds := getAdaptiveThresholds opts analysis "stroke rate"
      let strokeRateDrop := (p - c) / p * 100
      if thresholds.dropThreshold < strokeRateDrop ∨
          (c < thresholds.minValue ∧ thresholds.minValue < p) then
        let replacementValue := calculateAdvancedReplacement opts arr i "stroke rate" analysis
        (arr.set i (setValueFirstPresent currentPoint "stroke rate" replacementValue
            (fieldVariationsThree "stroke rate")),
         some analysis.workoutPhase)
      else (arr, none)
    else (arr, none)
  | _, _ => (arr, none)

/-- The watt branch of the main loop at index `i` (run after the
stroke-rate branch, on its output array).  It carries the phase histogram
through because the source contains
`pointWasFixed = true; ...; if (!pointWasFixed) phaseAnalysis[...]++;`
— a literal translation of that dead increment is kept here. -/
def wattBranch (sqrtFn : ℚ → ℚ) (opts : NoiseOptions) (arr : DataArr) (i : Nat)
    (ph : WorkoutPhase → Nat) : DataArr × Bool × (WorkoutPhase → Nat) :=
  let currentPoint := getRec arr i
  let prevPoint := getRec arr (i-1)
  match getValueFirstNumeric currentPoint "watt",
        getValueFirstNumeric prevPoint "watt" with
  | some c, some p =>
    if 0 < p then
      let analysis := enhancedAnalyzeWindow sqrtFn opts arr i "watt" opts.minValidWatt
      let thresholds := getAdaptiveThresholds opts analysis "watt"
      let wattDrop := (p - c) / p * 100
      if thresholds.dropThreshold < wattDrop ∨
          (c < thresholds.minValue ∧ thresholds.minValue < p) then
        let replacementValue := calculateAdvancedReplacement opts arr i "watt" analysis
        let arr2 := arr.set i (setValueFirstPresent currentPoint "watt" replacementValue
            (fieldVariationsThree "watt"))
        let pointWasFixed := true
        let ph2 := if !pointWasFixed then bumpPhase ph analysis.workoutPhase else ph
        (arr2, true, ph2)
      else (arr, false, ph)
    else (arr, false, ph)
  | _, _ => (arr, false, ph)

/-- One iteration of the advanced `fixSensorNoise` main loop. -/
def fixStep (sqrtFn : ℚ → ℚ) (opts : NoiseOptions) (s : FixState) (i : Nat) : FixState :=
  match getValueFirstNumeric (getRec s.arr i) "enhanced_speed",
        getValueFirstNumeric (getRec s.arr (i-1)) "enhanced_speed" with
  | some cs, some ps =>
    if cs = 0 ∨ ps = 0 then s else
    let speedVariation := qAbs ((cs - ps) / ps * 100)
    if speedVariation ≤ opts.speedStabilityThreshold ∧ 1 < cs then
      let sb := strokeBranch sqrtFn opts s.arr i
      let ph1 :=
        match sb.2 with
        | some phase => bumpPhase s.phaseAnalysis phase
        | none => s.phaseAnalysis
      let fsr1 := if sb.2.isSome then s.fixedStrokeRate + 1 else s.fixedStrokeRate
      let wb := wattBranch sqrtFn opts sb.1 i ph1
      let fw1 := if wb.2.1 then s.fixedWatt + 1 else s.fixedWatt
      let noisy1 := if sb.2.isSome ∨ wb.2.1 then s.noisyPoints + 1 else s.noisyPoints
      ⟨wb.1, noisy1, fsr1, fw1, wb.2.2⟩
    else s
  | _, _ => s

structure FixResultStats where
  totalPoints : Nat
  noisyPoints : Nat
  fixedStrokeRate : Nat
  fixedWatt : Nat
  qualityScore : ℚ
  phaseAnalysis : WorkoutPhase → Nat

/-- The advanced `fixSensorNoise` (the variant returning `qualityScore` and
`phaseAnalysis`).  The working copy (`dataPoints.map(p => ({...p}))`) is
the identity on this record model. -/
def fixSensorNoiseAdvanced (sqrtFn : ℚ → ℚ) (dataPoints : DataArr)
    (opts : NoiseOptions) : DataArr × FixResultStats :=
  let init : FixState := ⟨dataPoints, 0, 0, 0, fun _ => 0⟩
  let fin := (List.range' 1 (dataPoints.length - 1)).foldl (fixStep sqrtFn opts) init
  let qualityScore := qMax 0 (100 - ((fin.noisyPoints : ℚ) / (fin.arr.length : ℚ) * 100))
  (fin.arr,
   ⟨fin.arr.length, fin.noisyPoints, fin.fixedStrokeRate, fin.fixedWatt,
    qualityScore, fin.phaseAnalysis⟩)

/-- Sum of the five `phaseAnalysis` counters. -/
def phaseSum (g : WorkoutPhase → Nat) : Nat :=
  g .warmup + g .mainPhase + g .cooldown + g .interval + g .recovery

/-! ## Notions used by the theorems -/

/-- The side-channel keys a strategy may write for a target field: the
field itself plus the `_original`/`_corrected`/`_mean`/`_stddev`/`_filtered`
annotations.  Keys outside this set are never written by any strategy. -/
def isTouchedKey (fields : List String) (k : String) : Bool :=
  fields.any (fun f =>
    decide (k = f) || decide (k = f ++ "_original") || decide (k = f ++ "_corrected") ||
    decide (k = f ++ "_mean") || decide (k = f ++ "_stddev") || decide (k = f ++ "_filtered"))

/-- `b` has the same length as `a` and agrees with it at every index on
every key outside the touched set: each output record corresponds to the
input record at the same index (no reordering, insertion or deletion), up
to the strategy's own annotations. -/
def UntouchedAgree (fields : List String) (a b : DataArr) : Prop :=
  b.length = a.length ∧
  ∀ i k, isTouchedKey fields k = false → getF (getRec b i) k = getF (getRec a i) k

/-- The record written for every point of a fully-missing tail by the
Kalman filter with state estimate `x` (field `watt`): original `undefined`,
the coasted prediction, the filtered value and the corrected flag. -/
def coastRec (x : ℚ) : DataPoint :=
  [("watt_original", .undef), ("watt", .num x),
   ("watt_filtered", .num x), ("watt_corrected", .bool true)]

/-- Scenario 1 of the specification: `speed = [5,5,5,5,5]`,
`watt = [100,100,5,100,100]`. -/
def scenario1Data : DataArr :=
  [[("enhanced_speed", .num 5), ("watt", .num 100)],
   [("enhanced_speed", .num 5), ("watt", .num 100)],
   [("enhanced_speed", .num 5), ("watt", .num 5)],
   [("enhanced_speed", .num 5), ("watt", .num 100)],
   [("enhanced_speed", .num 5), ("watt", .num 100)]]

/-- Stable two-point series with a low previous watt value: the threshold
filter detects at index 1 and, finding no future stable reading, holds the
previous value `4 < minStableReading`. -/
def thresholdFloorData : DataArr :=
  [[("watt", .num 4), ("enhanced_speed", .num 5)],
   [("watt", .num 1), ("enhanced_speed", .num 5)]]

/-- A single stable record with both default target fields present: no
strategy's detection condition holds on it (in particular the Kalman
validity check passes, which needs both fields to be present and nonzero),
yet the moving-average filter still annotates it. -/
def stableSingleData : DataArr := [[("stroke_rate", .num 50), ("watt", .num 100)]]

/-- A stable two-point series on which no detection condition holds. -/
def stableTwoData : DataArr :=
  [[("enhanced_speed", .num 5), ("watt", .num 100)],
   [("enhanced_speed", .num 5), ("watt", .num 100)]]

/-- A two-point series whose time axis starts at 100 (not 0), with a zone
table exactly covering the observed value range. -/
def lateStartSeries : List TimeSeriesPoint := [⟨100, 10⟩, ⟨110, 10⟩]

def lateStartZones : List IZone := [⟨10, .fin 10, "A"⟩]

/-- The record of the `getValue` counterexample: the verbatim spelling is
present but non-numeric, the underscore spelling holds a number. -/
def mixedSpellingPoint : DataPoint := [("stroke rate", .other), ("stroke_rate", .num 42)]

/-- The C9 input family: one valid initial watt value followed by `n`
all-missing points. -/
def kalmanCoastData (v : ℚ) (n : Nat) : DataArr :=
  [("watt", JsVal.num v)] :: List.replicate n []

/-- The Kalman state trace over `kalmanCoastData` (state after each point),
for the filter seeded as `applyKalmanFilter` seeds it on this data. -/
def kalmanCoastStates (v : ℚ) (n : Nat) : List KalmanState :=
  (kalmanLoop "watt" (1/2) ⟨v, 1, 1/20, 1⟩ none none (kalmanCoastData v n)).2

/-! # Theorems -/

/-! ## Generic list lemmas -/

theorem foldl_fixed {α β : Type} (f : β → α → β) (b : β) (l : List α)
    (h : ∀ x ∈ l, f b x = b) : l.foldl f b = b := by
  induction l with
  | nil => rfl
  | cons a t ih =>
    rw [List.foldl_cons, h a (by simp)]
    exact ih (fun x hx => h x (by simp [hx]))

theorem getF_setF_ne (r : DataPoint) (k k' : String) (v : JsVal) (h : k' ≠ k) :
    getF (setF r k v) k' = getF r k' := by
  induction r with
  | nil =>
    simp only [setF, getF]
    rw [if_neg (fun hk => h hk.symm)]
  | cons p rest ih =>
    obtain ⟨a, b⟩ := p
    simp only [setF]
    by_cases hp : a = k
    · rw [if_pos hp]
      simp only [getF]
      rw [if_neg (fun hk : k = k' => h hk.symm), hp,
          if_neg (fun hk : k = k' => h hk.symm)]
    · rw [if_neg hp]
      simp only [getF]
      by_cases hp' : a = k'
      · rw [if_pos hp', if_pos hp']
      · rw [if_neg hp', if_neg hp', ih]

/-! ## C5: zone distribution on a too-short series -/

/-- C5: the specification claims that for a series with fewer than 2 points
— including the empty series — `calculateZoneDistribution` returns a
neutral/zero result and does not throw.  On the empty series the source
evaluates `timeSeries[timeSeries.length - 1].timer_time`, a property read
on `undefined`, and throws a `TypeError` (modelled by `none`): the code
contradicts the documented no-throw contract. -/
theorem calculateZoneDistribution_throws_on_empty (zones : List IZone) :
    calculateZoneDistribution [] zones = none := rfl

/-! ## C8: `auto` is the correlation strategy -/

/-- C8: for every input and options, `filterSensorData` with method `auto`
equals `filterSensorData` with method `correlation` on the same input: both
dispatch to `correlationBasedFiltering`, whose `windowSize` parameter is
never read, so even a custom `windowSize` cannot distinguish them. -/
theorem filterSensorData_auto_eq_correlation (data : DataArr)
    (fields : Option (List String)) (referenceField : Option String)
    (dropThreshold : Option ℚ) (windowSize : Option Nat) :
    filterSensorData data ⟨.auto, fields, referenceField, dropThreshold, windowSize⟩ =
      filterSensorData data ⟨.correlation, fields, referenceField, dropThreshold, windowSize⟩ := rfl

/-! ## C3: the monotonic-floor property -/

/-- C3 (counterexample): the threshold strategy corrects index 1 of
`thresholdFloorData` (watt `[4, 1]`, stable speed) and writes the held
previous value `4`, which is below the configured
`minStableReading = 10` — so a corrected value *can* lie below the
minimum-valid-value. -/
theorem threshold_floor_cx :
    isCorrectedPoint
      (cleanSensorDataWithThresholds thresholdFloorData ["stroke_rate", "watt"] "enhanced_speed")
      1 "watt" = true ∧
    getF (getRec
      (cleanSensorDataWithThresholds thresholdFloorData ["stroke_rate", "watt"] "enhanced_speed")
      1) "watt" = .num 4 ∧
    ¬ (10 : ℚ) ≤ 4 :=
  of_decide_eq_true (by with_unfolding_all rfl)

/-- C3 (amended): the floor guarantee holds for the correlation strategy's
expected-value fallback: `expectedValueFor` never returns less than 10 for
`stroke_rate` nor less than 20 for `watt`, whatever the reference value and
ratio statistics; corrected values produced by interpolation or by holding
the previous value (threshold strategy) carry no such floor. -/
theorem correlation_expectedValue_floors (refValue : ℚ) (vr : Option ValidRange) :
    10 ≤ expectedValueFor "stroke_rate" refValue vr ∧
    20 ≤ expectedValueFor "watt" refValue vr := by
  have hmax : ∀ a b c : ℚ, c ≤ b → c ≤ qMax a b := by
    intro a b c h
    unfold qMax
    split_ifs with hab
    · exact h
    · exact le_trans h (le_of_not_le hab)
  constructor
  · simp only [expectedValueFor]
    rcases le_or_lt refValue 5 with h | h
    · simp only [if_pos trivial, if_neg (not_lt.mpr h)]
      exact hmax _ _ _ (by norm_num)
    · simp only [if_pos trivial, if_pos h]
      exact hmax _ _ _ (by norm_num)
  · simp only [expectedValueFor]
    rcases le_or_lt refValue 3 with h | h
    · simp only [if_pos trivial, if_neg (not_lt.mpr h)]
      exact hmax _ _ _ (by norm_num)
    · simp only [if_pos trivial, if_pos h]
      exact hmax _ _ _ (by norm_num)

/-! ## C7: field-accessor variant semantics -/

theorem firstNumeric_go_eq (point : DataPoint) (l : List String) :
    getValueFirstNumeric.go point l =
      (l.find? (fun v => isNumV (getF point v))).bind (fun v => numOpt (getF point v)) := by
  induction l with
  | nil => rfl
  | cons v rest ih =>
    rw [List.find?_cons]
    cases h : getF point v with
    | num q => simp [getValueFirstNumeric.go, h, isNumV, numOpt]
    | undef => simp [getValueFirstNumeric.go, h, isNumV, ih]
    | bool b => simp [getValueFirstNumeric.go, h, isNumV, ih]
    | sqr q => simp [getValueFirstNumeric.go, h, isNumV, ih]
    | other => simp [getValueFirstNumeric.go, h, isNumV, ih]

theorem firstPresent_go_eq (point : DataPoint) (l : List String) :
    getValueFirstPresent.go point l =
      (l.find? (fun v => !isUndefV (getF point v))).bind (fun v => numOpt (getF point v)) := by
  induction l with
  | nil => rfl
  | cons v rest ih =>
    rw [List.find?_cons]
    cases h : getF point v with
    | num q => simp [getValueFirstPresent.go, h, isUndefV, numOpt]
    | undef => simp [getValueFirstPresent.go, h, isUndefV, ih]
    | bool b => simp [getValueFirstPresent.go, h, isUndefV, numOpt]
    | sqr q => simp [getValueFirstPresent.go, h, isUndefV, numOpt]
    | other => simp [getValueFirstPresent.go, h, isUndefV, numOpt]

/-- C7 (counterexample): on a record whose verbatim spelling holds a
non-numeric value while the underscore spelling holds `42`, the
`detectSensorNoise`/basic-`fixSensorNoise` accessor returns `undefined`
even though a later variant holds a valid number — it stops at the first
*present* variant instead of the first *numeric* one. -/
theorem getValue_firstPresent_cx :
    "stroke_rate" ∈ fieldVariationsFive "stroke rate" ∧
    getF mixedSpellingPoint "stroke_rate" = .num 42 ∧
    getValueFirstPresent mixedSpellingPoint "stroke rate" = none :=
  of_decide_eq_true (by with_unfolding_all rfl)

/-- C7 (amended): the advanced `fixSensorNoise` accessor
(`getValueFirstNumeric`) returns the value of the first spelling variant
present with a numeric value and `undefined` exactly when no variant holds
a number; the `detectSensorNoise`/basic-`fixSensorNoise` accessor
(`getValueFirstPresent`) instead stops at the first *present* variant and
returns `undefined` when that variant is non-numeric, even if a later
variant holds a number. -/
theorem getValue_variant_semantics (point : DataPoint) (fieldBase : String) :
    getValueFirstNumeric point fieldBase =
      ((fieldVariationsThree fieldBase).find? (fun v => isNumV (getF point v))).bind
        (fun v => numOpt (getF point v)) ∧
    (getValueFirstNumeric point fieldBase).isNone =
      (fieldVariationsThree fieldBase).all (fun v => !isNumV (getF point v)) ∧
    getValueFirstPresent point fieldBase =
      ((fieldVariationsFive fieldBase).find? (fun v => !isUndefV (getF point v))).bind
        (fun v => numOpt (getF point v)) := by
  refine ⟨firstNumeric_go_eq point _, ?_, firstPresent_go_eq point _⟩
  rw [show getValueFirstNumeric point fieldBase = getValueFirstNumeric.go point
        (fieldVariationsThree fieldBase) from rfl,
      firstNumeric_go_eq point _]
  cases hf : (fieldVariationsThree fieldBase).find? (fun v => isNumV (getF point v)) with
  | none =>
    have hall := List.find?_eq_none.mp hf
    have h1 : ((none : Option String).bind fun v => numOpt (getF point v)).isNone = true := rfl
    rw [h1]
    symm
    rw [List.all_eq_true]
    intro v hv
    simpa using hall v hv
  | some v =>
    have hp : isNumV (getF point v) = true := by simpa using List.find?_some hf
    have hmem : v ∈ fieldVariationsThree fieldBase := List.mem_of_find?_eq_some hf
    obtain ⟨q, hgv⟩ : ∃ q, getF point v = JsVal.num q := by
      cases hgv : getF point v with
      | num q => exact ⟨q, rfl⟩
      | undef => rw [hgv] at hp; exact absurd hp (by simp [isNumV])
      | bool b => rw [hgv] at hp; exact absurd hp (by simp [isNumV])
      | sqr q => rw [hgv] at hp; exact absurd hp (by simp [isNumV])
      | other => rw [hgv] at hp; exact absurd hp (by simp [isNumV])
    have h1 : ((some v).bind fun w => numOpt (getF point w)).isNone = false := by
      simp [Option.bind, hgv, numOpt]
    rw [h1]
    symm
    rw [Bool.eq_false_iff]
    intro hall
    have hv2 := List.all_eq_true.mp hall v hmem
    rw [hgv] at hv2
    simp [isNumV] at hv2

/-! ## C4: Scenario 1 of the specification -/

/-- C4: on `speed = [5,5,5,5,5]`, `watt = [100,100,5,100,100]` the
correlation strategy flags exactly index 2 (`watt_corrected = true` there
and nowhere else) and replaces the dropped `5` by the interpolation between
the neighbouring valid values `100` and `100`, i.e. exactly `100`. -/
theorem correlation_scenario1 :
    (List.range 5).map (fun i =>
        isCorrectedPoint
          (correlationBasedFiltering scenario1Data ["stroke_rate", "watt"] "enhanced_speed" 30)
          i "watt")
      = [false, false, true, false, false] ∧
    getF (getRec
        (correlationBasedFiltering scenario1Data ["stroke_rate", "watt"] "enhanced_speed" 30)
        2) "watt" = .num 100 :=
  of_decide_eq_true (by with_unfolding_all rfl)

/-! ## C1: idempotence on stable input -/

/-- C1 (counterexample): on the single stable record `{watt: 100}` no
strategy's detection condition holds, yet `filterSensorData` with the
moving-average method does not return the input unchanged — it annotates
the record with the `watt_mean`/`watt_stddev` side keys (and the Kalman
method likewise always adds `watt_filtered`). -/
theorem stability_not_idempotent_cx :
    anyStrategyDetects stableSingleData ["stroke_rate", "watt"] "enhanced_speed" 5 (1/2) = false ∧
    filterSensorData stableSingleData ⟨.movingAverage, none, none, none, none⟩ ≠ stableSingleData :=
  of_decide_eq_true (by with_unfolding_all rfl)

/-! ## C6: zone-coverage identity, counterexample -/

set_option maxRecDepth 4000 in
/-- C6 (counterexample): a two-point series starting at `timer_time = 100`
with a zone table exactly covering the observed value range.  Because
`previousDuration` starts at 0, the first point contributes its absolute
time 100 (not 0), so the percentages sum to 1100, not ≈ 100. -/
theorem zone_coverage_cx :
    2 ≤ lateStartSeries.length ∧
    (∀ p ∈ lateStartSeries, (lateStartZones.filter (fun z => zoneContains z p.value)).length = 1) ∧
    (calculateZoneDistribution lateStartSeries lateStartZones).map
        (fun items => (items.map IZoneDistributionItem.percentage).sum) = some 1100 ∧
    (1100 : ℚ) ≠ 100 :=
  of_decide_eq_true (by with_unfolding_all rfl)

/-! ## C1 (amended): threshold/correlation/auto are the identity on
series without detections -/

theorem thresholdFieldStep_of_not_detect (ref f : String) (arr : DataArr) (i : Nat)
    (h : thresholdDetects arr ref f i = false) : thresholdFieldStep ref arr i f = arr := by
  simp [thresholdFieldStep, h]

theorem corrStep_of_not_detect (vrF : String → Option ValidRange) (ref : String)
    (arr : DataArr) (i : Nat) (f : String)
    (h : corrDetects vrF arr ref f i = false) : corrStep vrF ref arr i f = arr := by
  simp [corrStep, h]

theorem cleanThresholds_fixed (data : DataArr) (fields : List String) (ref : String)
    (h : ∀ i, i < data.length → ∀ f, f ∈ fields →
      thresholdDetects data ref f i = false) :
    cleanSensorDataWithThresholds data fields ref = data := by
  unfold cleanSensorDataWithThresholds
  split_ifs with hlen
  · exact (List.length_eq_zero.mp hlen).symm
  · apply foldl_fixed
    intro i hi
    apply foldl_fixed
    intro f hf
    have hi' : i < data.length := by
      have := List.mem_range'_1.mp hi
      omega
    exact thresholdFieldStep_of_not_detect ref f data i (h i hi' f hf)

theorem correlationFiltering_fixed (data : DataArr) (fields : List String) (ref : String)
    (w : Nat)
    (h : ∀ i, i < data.length → ∀ f, f ∈ fields →
      corrDetects (fun g => validRangeFor data g ref) data ref f i = false) :
    correlationBasedFiltering data fields ref w = data := by
  unfold correlationBasedFiltering
  split_ifs with hlen
  · exact (List.length_eq_zero.mp hlen).symm
  · apply foldl_fixed
    intro i hi
    apply foldl_fixed
    intro f hf
    exact corrStep_of_not_detect _ ref data i f (h i (List.mem_range.mp hi) f hf)

/-- C1 (amended): if no in-range point satisfies the threshold detection
condition nor the correlation dropout condition, then the threshold
strategy, the correlation strategy and `cleanSensorData` (the `auto`
dispatch target) all return the input series unchanged — no annotation
keys are added.  (As stated for all five strategies the claim is false:
the moving-average filter always adds `_mean`/`_stddev` keys and the
Kalman filter always adds `_filtered` keys, see
`stability_not_idempotent_cx`.) -/
theorem stability_threshold_correlation_auto (data : DataArr) (fields : List String)
    (referenceField : String) (windowSize : Nat)
    (hThr : ∀ i, i < data.length → ∀ f, f ∈ fields →
      thresholdDetects data referenceField f i = false)
    (hCorr : ∀ i, i < data.length → ∀ f, f ∈ fields →
      corrDetects (fun g => validRangeFor data g referenceField) data referenceField f i = false) :
    cleanSensorDataWithThresholds data fields referenceField = data ∧
    correlationBasedFiltering data fields referenceField windowSize = data ∧
    cleanSensorData data fields referenceField = data :=
  ⟨cleanThresholds_fixed data fields referenceField hThr,
   correlationFiltering_fixed data fields referenceField windowSize hCorr,
   correlationFiltering_fixed data fields referenceField 30 hCorr⟩

/-- Witness for `stability_threshold_correlation_auto` at a concrete stable
two-point series. -/
theorem stability_threshold_correlation_auto_witness :
    cleanSensorDataWithThresholds stableTwoData ["stroke_rate", "watt"] "enhanced_speed"
        = stableTwoData ∧
    correlationBasedFiltering stableTwoData ["stroke_rate", "watt"] "enhanced_speed" 30
        = stableTwoData ∧
    cleanSensorData stableTwoData ["stroke_rate", "watt"] "enhanced_speed" = stableTwoData :=
  stability_threshold_correlation_auto stableTwoData ["stroke_rate", "watt"] "enhanced_speed" 30
    (of_decide_eq_true (by with_unfolding_all rfl))
    (of_decide_eq_true (by with_unfolding_all rfl))

/-! ## C2: length and order preservation -/

theorem untouchedAgree_refl (fields : List String) (a : DataArr) :
    UntouchedAgree fields a a := ⟨rfl, fun _ _ _ => rfl⟩

theorem untouchedAgree_trans {fields : List String} {a b c : DataArr}
    (h1 : UntouchedAgree fields a b) (h2 : UntouchedAgree fields b c) :
    UntouchedAgree fields a c :=
  ⟨h2.1.trans h1.1, fun i k hk => (h2.2 i k hk).trans (h1.2 i k hk)⟩

theorem getRec_set (arr : DataArr) (i j : Nat) (x : DataPoint) :
    getRec (arr.set i x) j =
      if i = j ∧ i < arr.length then x else getRec arr j := by
  simp only [getRec, List.getD_eq_getElem?_getD, List.getElem?_set]
  by_cases hij : i = j
  · subst hij
    by_cases hl : i < arr.length
    · simp [hl]
    · simp [hl, List.getElem?_eq_none (Nat.le_of_not_lt hl)]
  · simp [hij]

theorem untouchedAgree_updAt (fields : List String) (arr : DataArr) (i : Nat)
    (k : String) (v : JsVal) (hk : isTouchedKey fields k = true) :
    UntouchedAgree fields arr (updAt arr i k v) := by
  refine ⟨List.length_set arr i _, fun j k' hk' => ?_⟩
  have hne : k' ≠ k := by
    intro he
    rw [he, hk] at hk'
    exact Bool.noConfusion hk'
  rw [updAt, getRec_set]
  split_ifs with hij
  · rw [← hij.1]
    exact getF_setF_ne _ _ _ _ hne
  · rfl

theorem untouchedAgree_foldl {α : Type} (fields : List String)
    (step : DataArr → α → DataArr) (l : List α) (a : DataArr)
    (h : ∀ arr x, x ∈ l → UntouchedAgree fields arr (step arr x)) :
    UntouchedAgree fields a (l.foldl step a) := by
  induction l generalizing a with
  | nil => exact untouchedAgree_refl fields a
  | cons x t ih =>
    rw [List.foldl_cons]
    exact untouchedAgree_trans (h a x (by simp))
      (ih _ (fun arr y hy => h arr y (by simp [hy])))

theorem touched_base {fields : List String} {f : String} (hf : f ∈ fields) :
    isTouchedKey fields f = true := by
  rw [isTouchedKey, List.any_eq_true]
  exact ⟨f, hf, by simp⟩

theorem touched_append {fields : List String} {f : String} (hf : f ∈ fields)
    (s : String)
    (hs : s = "_original" ∨ s = "_corrected" ∨ s = "_mean" ∨ s = "_stddev" ∨ s = "_filtered") :
    isTouchedKey fields (f ++ s) = true := by
  rw [isTouchedKey, List.any_eq_true]
  refine ⟨f, hf, ?_⟩
  rcases hs with h | h | h | h | h <;> subst h <;> simp

theorem untouchedAgree_updAt2 (fields : List String) (arr : DataArr) (i : Nat)
    (k1 : String) (v1 : JsVal) (k2 : String) (v2 : JsVal)
    (h1 : isTouchedKey fields k1 = true) (h2 : isTouchedKey fields k2 = true) :
    UntouchedAgree fields arr (updAt (updAt arr i k1 v1) i k2 v2) :=
  untouchedAgree_trans (untouchedAgree_updAt fields arr i k1 v1 h1)
    (untouchedAgree_updAt fields (updAt arr i k1 v1) i k2 v2 h2)

theorem untouchedAgree_updAt3 (fields : List String) (arr : DataArr) (i : Nat)
    (k1 : String) (v1 : JsVal) (k2 : String) (v2 : JsVal) (k3 : String) (v3 : JsVal)
    (h1 : isTouchedKey fields k1 = true) (h2 : isTouchedKey fields k2 = true)
    (h3 : isTouchedKey fields k3 = true) :
    UntouchedAgree fields arr (updAt (updAt (updAt arr i k1 v1) i k2 v2) i k3 v3) :=
  untouchedAgree_trans (untouchedAgree_updAt2 fields arr i k1 v1 k2 v2 h1 h2)
    (untouchedAgree_updAt fields _ i k3 v3 h3)

theorem untouchedAgree_thresholdFill {fields : List String} {f : String} (hf : f ∈ fields)
    (prevQ stepQ : ℚ) (i next : Nat) (arr : DataArr) :
    UntouchedAgree fields arr (thresholdFill f prevQ stepQ i next arr) := by
  apply untouchedAgree_foldl
  intro a j _
  dsimp only
  exact untouchedAgree_updAt3 fields a j _ _ _ _ _ _
    (touched_append hf "_original" (Or.inl rfl)) (touched_base hf)
    (touched_append hf "_corrected" (Or.inr (Or.inl rfl)))

theorem untouchedAgree_thresholdFieldStep {fields : List String} {f : String}
    (hf : f ∈ fields) (ref : String) (arr : DataArr) (i : Nat) :
    UntouchedAgree fields arr (thresholdFieldStep ref arr i f) := by
  rw [thresholdFieldStep]
  split_ifs with hd
  · rw [thresholdRepair]
    refine untouchedAgree_trans (untouchedAgree_updAt2 fields arr i
      (f ++ "_original") (getF (getRec arr i) f) (f ++ "_corrected") (JsVal.bool true)
      (touched_append hf "_original" (Or.inl rfl))
      (touched_append hf "_corrected" (Or.inr (Or.inl rfl)))) ?_
    split_ifs with hn
    · exact untouchedAgree_thresholdFill hf _ _ _ _ _
    · exact untouchedAgree_updAt _ _ _ _ _ (touched_base hf)
  · exact untouchedAgree_refl fields arr

theorem untouchedAgree_cleanThresholds (fields : List String) (data : DataArr)
    (rateFields : List String) (ref : String) (hsub : ∀ f ∈ rateFields, f ∈ fields) :
    UntouchedAgree fields data (cleanSensorDataWithThresholds data rateFields ref) := by
  rw [cleanSensorDataWithThresholds]
  split_ifs with hlen
  · rw [List.length_eq_zero.mp hlen]
    exact untouchedAgree_refl fields []
  · apply untouchedAgree_foldl
    intro arr i _
    apply untouchedAgree_foldl
    intro a f hfm
    exact untouchedAgree_thresholdFieldStep (hsub f hfm) ref a i

theorem ne_of_untouched {fields : List String} {k key : String}
    (hk : isTouchedKey fields k = false) (hkey : isTouchedKey fields key = true) :
    k ≠ key := by
  intro he
  rw [he, hkey] at hk
  exact Bool.noConfusion hk

theorem untouchedAgree_mvAvgPass1 {fields : List String} {f : String} (hf : f ∈ fields)
    (windowSize : Nat) (arr : DataArr) :
    UntouchedAgree fields arr (mvAvgPass1 f windowSize arr) := by
  rw [mvAvgPass1]
  apply untouchedAgree_foldl
  intro a i _
  dsimp only
  split_ifs with hw
  · exact untouchedAgree_refl fields a
  · exact untouchedAgree_updAt2 fields a i _ _ _ _
      (touched_append hf "_mean" (Or.inr (Or.inr (Or.inl rfl))))
      (touched_append hf "_stddev" (Or.inr (Or.inr (Or.inr (Or.inl rfl)))))

theorem untouchedAgree_mvAvgPass2 {fields : List String} {f : String} (hf : f ∈ fields)
    (arr : DataArr) :
    UntouchedAgree fields arr (mvAvgPass2 f arr) := by
  rw [mvAvgPass2]
  apply untouchedAgree_foldl
  intro a i _
  dsimp only
  split
  all_goals
    first
      | exact untouchedAgree_refl fields a
      | (split_ifs with hc
         · exact untouchedAgree_updAt3 fields a i _ _ _ _ _ _
             (touched_append hf "_original" (Or.inl rfl)) (touched_base hf)
             (touched_append hf "_corrected" (Or.inr (Or.inl rfl)))
         · exact untouchedAgree_refl fields a)

theorem untouchedAgree_movingAverage (fields : List String) (data : DataArr)
    (mfields : List String) (windowSize : Nat) (hsub : ∀ f ∈ mfields, f ∈ fields) :
    UntouchedAgree fields data (applyMovingAverageFilter data mfields windowSize) := by
  rw [applyMovingAverageFilter]
  split_ifs with hlen
  · rw [List.length_eq_zero.mp hlen]
    exact untouchedAgree_refl fields []
  · apply untouchedAgree_foldl
    intro arr f hfm
    exact untouchedAgree_trans (untouchedAgree_mvAvgPass1 (hsub f hfm) windowSize arr)
      (untouchedAgree_mvAvgPass2 (hsub f hfm) _)

theorem untouchedAgree_corrRepair {fields : List String} {f : String} (hf : f ∈ fields)
    (vrF : String → Option ValidRange) (arr : DataArr) (i : Nat) (v r : ℚ) :
    UntouchedAgree fields arr (corrRepair vrF arr i f v r) := by
  rw [corrRepair]
  exact untouchedAgree_updAt3 fields arr i _ _ _ _ _ _
    (touched_append hf "_original" (Or.inl rfl))
    (touched_append hf "_corrected" (Or.inr (Or.inl rfl)))
    (touched_base hf)

theorem untouchedAgree_corrStep {fields : List String} {f : String} (hf : f ∈ fields)
    (vrF : String → Option ValidRange) (ref : String) (arr : DataArr) (i : Nat) :
    UntouchedAgree fields arr (corrStep vrF ref arr i f) := by
  rw [corrStep]
  split_ifs with hd
  · split
    all_goals
      first
        | exact untouchedAgree_refl fields arr
        | exact untouchedAgree_corrRepair hf vrF arr i _ _
  · exact untouchedAgree_refl fields arr

theorem untouchedAgree_correlation (fields : List String) (data : DataArr)
    (tfields : List String) (ref : String) (w : Nat)
    (hsub : ∀ f ∈ tfields, f ∈ fields) :
    UntouchedAgree fields data (correlationBasedFiltering data tfields ref w) := by
  rw [correlationBasedFiltering]
  split_ifs with hlen
  · rw [List.length_eq_zero.mp hlen]
    exact untouchedAgree_refl fields []
  · apply untouchedAgree_foldl
    intro arr i _
    apply untouchedAgree_foldl
    intro a f hfm
    exact untouchedAgree_corrStep (hsub f hfm) _ ref a i

theorem getRec_cons_succ (x : DataPoint) (l : DataArr) (i : Nat) :
    getRec (x :: l) (i + 1) = getRec l i := by
  simp [getRec]

theorem untouchedAgree_kalmanLoop {fields : List String} {f : String} (hf : f ∈ fields)
    (dt : ℚ) :
    ∀ (l : List DataPoint) (st : KalmanState) (p1 p2 : Option DataPoint),
      UntouchedAgree fields l (kalmanLoop f dt st p1 p2 l).1 := by
  intro l
  induction l with
  | nil =>
    intro st p1 p2
    exact untouchedAgree_refl fields []
  | cons r rest ih =>
    intro st p1 p2
    rw [kalmanLoop]
    have hko : isTouchedKey fields (f ++ "_original") = true :=
      touched_append hf "_original" (Or.inl rfl)
    have hkb : isTouchedKey fields f = true := touched_base hf
    have hkf : isTouchedKey fields (f ++ "_filtered") = true :=
      touched_append hf "_filtered" (Or.inr (Or.inr (Or.inr (Or.inr rfl))))
    have hkc : isTouchedKey fields (f ++ "_corrected") = true :=
      touched_append hf "_corrected" (Or.inr (Or.inl rfl))
    constructor
    · simpa using (ih _ _ _).1
    · intro i k hk
      cases i with
      | zero =>
        split_ifs with hv
        · show getF (setF (setF (setF (setF r (f ++ "_original") (getF r f)) f
              (JsVal.num (KalmanState.predict st).x)) (f ++ "_filtered")
              (JsVal.num (KalmanState.predict st).x)) (f ++ "_corrected")
              (JsVal.bool true)) k = getF r k
          rw [getF_setF_ne _ _ _ _ (ne_of_untouched hk hkc),
              getF_setF_ne _ _ _ _ (ne_of_untouched hk hkf),
              getF_setF_ne _ _ _ _ (ne_of_untouched hk hkb),
              getF_setF_ne _ _ _ _ (ne_of_untouched hk hko)]
        · show getF (setF r (f ++ "_filtered")
              (JsVal.num ((KalmanState.predict st).updateValid (numOf (getF r f))).x)) k
            = getF r k
          rw [getF_setF_ne _ _ _ _ (ne_of_untouched hk hkf)]
      | succ i =>
        rw [getRec_cons_succ, getRec_cons_succ]
        exact (ih _ _ _).2 i k hk

theorem untouchedAgree_kalman (fields : List String) (data : DataArr)
    (kfields : List String) (dt : ℚ) (hsub : ∀ f ∈ kfields, f ∈ fields) :
    UntouchedAgree fields data (applyKalmanFilter data kfields dt) := by
  rw [applyKalmanFilter]
  split_ifs with hlen
  · rw [List.length_eq_zero.mp hlen]
    exact untouchedAgree_refl fields []
  · apply untouchedAgree_foldl
    intro arr f hfm
    exact untouchedAgree_kalmanLoop (hsub f hfm) dt arr _ none none

/-- C2: for every input and every strategy choice, the corrected sequence
has the same number of records as the input, and the record at each index
corresponds to the input record at the same index: every key outside the
strategy's own annotation set for the effective target fields is unchanged
at every index (no reordering, insertion or deletion). -/
theorem filterSensorData_length_order (data : DataArr) (options : FilterOptions) :
    (filterSensorData data options).length = data.length ∧
    ∀ i k, isTouchedKey (options.fields.getD ["stroke_rate", "watt"]) k = false →
      getF (getRec (filterSensorData data options) i) k = getF (getRec data i) k := by
  have hagree : UntouchedAgree (options.fields.getD ["stroke_rate", "watt"]) data
      (filterSensorData data options) := by
    rw [filterSensorData]
    cases options.method with
    | threshold => exact untouchedAgree_cleanThresholds _ data _ _ (fun f hf => hf)
    | movingAverage => exact untouchedAgree_movingAverage _ data _ _ (fun f hf => hf)
    | correlation => exact untouchedAgree_correlation _ data _ _ _ (fun f hf => hf)
    | kalman => exact untouchedAgree_kalman _ data _ _ (fun f hf => hf)
    | auto => exact untouchedAgree_correlation _ data _ _ _ (fun f hf => hf)
  exact ⟨hagree.1, hagree.2⟩

/-- Witness for `filterSensorData_length_order`: the Kalman run over a
two-point series preserves length and leaves the untouched key
`heart_rate` unchanged at index 0. -/
theorem filterSensorData_length_order_witness :
    (filterSensorData [[("heart_rate", .num 77), ("watt", .num 100)], [("watt", .num 0)]]
        ⟨.kalman, none, none, none, none⟩).length = 2 ∧
    isTouchedKey (["stroke_rate", "watt"] : List String) "heart_rate" = false ∧
    getF (getRec (filterSensorData
        [[("heart_rate", .num 77), ("watt", .num 100)], [("watt", .num 0)]]
        ⟨.kalman, none, none, none, none⟩) 0) "heart_rate" = .num 77 :=
  ⟨(filterSensorData_length_order _ _).1,
   of_decide_eq_true (by with_unfolding_all rfl),
   by
    rw [(filterSensorData_length_order
      [[("heart_rate", .num 77), ("watt", .num 100)], [("watt", .num 0)]]
      ⟨.kalman, none, none, none, none⟩).2 0 "heart_rate"
      (of_decide_eq_true (by with_unfolding_all rfl))]
    exact of_decide_eq_true (by with_unfolding_all rfl)⟩

/-! ## C10: the phase histogram counts exactly the stroke-rate fixes -/

theorem foldl_invariant {α β : Type} (P : β → Prop) (f : β → α → β) (b : β)
    (l : List α) (hb : P b) (hf : ∀ s x, P s → P (f s x)) : P (l.foldl f b) := by
  induction l generalizing b with
  | nil => exact hb
  | cons x t ih => exact ih _ (hf b x hb)

theorem phaseSum_bumpPhase (g : WorkoutPhase → Nat) (p : WorkoutPhase) :
    phaseSum (bumpPhase g p) = phaseSum g + 1 := by
  cases p <;> simp [phaseSum, bumpPhase] <;> omega

theorem wattBranch_phase (sqrtFn : ℚ → ℚ) (opts : NoiseOptions) (arr : DataArr)
    (i : Nat) (ph : WorkoutPhase → Nat) :
    (wattBranch sqrtFn opts arr i ph).2.2 = ph := by
  rw [wattBranch]
  split
  all_goals dsimp only
  all_goals first
    | rfl
    | (split_ifs <;> first | rfl | simp_all)

theorem fixStep_phase_invariant (sqrtFn : ℚ → ℚ) (opts : NoiseOptions)
    (s : FixState) (i : Nat)
    (h : phaseSum s.phaseAnalysis = s.fixedStrokeRate) :
    phaseSum (fixStep sqrtFn opts s i).phaseAnalysis =
      (fixStep sqrtFn opts s i).fixedStrokeRate := by
  rw [fixStep]
  split
  · split_ifs with h0
    · exact h
    · dsimp only
      rw [wattBranch_phase]
      cases hsb : (strokeBranch sqrtFn opts s.arr i).2 with
      | some p =>
        simp only [hsb]
        split_ifs <;> simp_all [phaseSum_bumpPhase]
      | none =>
        simp only [hsb]
        split_ifs <;> simp_all
  · exact h

/-- C10: in the statistics of the advanced `fixSensorNoise`, the
`phaseAnalysis` histogram is incremented exactly once per stroke-rate fix
and never for a watt fix (the watt branch's phase increment sits behind
`if (!pointWasFixed)` immediately after `pointWasFixed = true` and is dead
code), so for every input and options the sum of the five phase counters
equals `stats.fixedFields['stroke rate']`; a record where only watt is
corrected adds to `noisyPoints` but contributes nothing to the histogram. -/
theorem fixSensorNoise_phase_counts (sqrtFn : ℚ → ℚ) (dataPoints : DataArr)
    (opts : NoiseOptions) :
    phaseSum (fixSensorNoiseAdvanced sqrtFn dataPoints opts).2.phaseAnalysis =
      (fixSensorNoiseAdvanced sqrtFn dataPoints opts).2.fixedStrokeRate := by
  rw [fixSensorNoiseAdvanced]
  dsimp only
  exact foldl_invariant
    (fun st => phaseSum st.phaseAnalysis = st.fixedStrokeRate)
    (fixStep sqrtFn opts) ⟨dataPoints, 0, 0, 0, fun _ => 0⟩
    (List.range' 1 (dataPoints.length - 1)) rfl
    (fun st j hst => fixStep_phase_invariant sqrtFn opts st j hst)

/-! ## C9: Kalman filter coasting over a missing tail -/

theorem kalmanLoop_empty_step (st : KalmanState) (p1 p2 : Option DataPoint)
    (rest : List DataPoint) :
    kalmanLoop "watt" (1/2) st p1 p2 (([] : DataPoint) :: rest) =
      (coastRec st.x :: (kalmanLoop "watt" (1/2) ⟨st.x, st.P + st.Q, st.Q, st.R⟩
          (some (coastRec st.x)) p1 rest).1,
       (⟨st.x, st.P + st.Q, st.Q, st.R⟩ : KalmanState) ::
         (kalmanLoop "watt" (1/2) ⟨st.x, st.P + st.Q, st.Q, st.R⟩
           (some (coastRec st.x)) p1 rest).2) := rfl

theorem kalmanLoop_coast_fst (n : Nat) :
    ∀ (st : KalmanState) (p1 p2 : Option DataPoint),
      (kalmanLoop "watt" (1/2) st p1 p2 (List.replicate n ([] : DataPoint))).1
        = List.replicate n (coastRec st.x) := by
  induction n with
  | zero => intro st p1 p2; rfl
  | succ n ih =>
    intro st p1 p2
    rw [List.replicate_succ, kalmanLoop_empty_step]
    show coastRec st.x :: _ = _
    rw [ih, List.replicate_succ]

theorem kalmanLoop_coast_states (n : Nat) :
    ∀ (st : KalmanState) (p1 p2 : Option DataPoint) (i : Nat), i < n →
      (kalmanLoop "watt" (1/2) st p1 p2 (List.replicate n ([] : DataPoint))).2.getD i ⟨0, 0, 0, 0⟩
        = ⟨st.x, st.P + ((i : ℚ) + 1) * st.Q, st.Q, st.R⟩ := by
  induction n with
  | zero => intro st p1 p2 i hi; exact absurd hi (Nat.not_lt_zero i)
  | succ n ih =>
    intro st p1 p2 i hi
    rw [List.replicate_succ, kalmanLoop_empty_step]
    cases i with
    | zero =>
      show (⟨st.x, st.P + st.Q, st.Q, st.R⟩ : KalmanState) = _
      congr 1
      push_cast
      ring
    | succ i =>
      show (kalmanLoop "watt" (1/2) ⟨st.x, st.P + st.Q, st.Q, st.R⟩
          (some (coastRec st.x)) p1 (List.replicate n ([] : DataPoint))).2.getD i ⟨0, 0, 0, 0⟩ = _
      rw [ih _ _ _ i (by omega)]
      congr 1
      push_cast
      ring

theorem kalmanInvalid_first (v : ℚ) (hv : v ≠ 0) :
    kalmanInvalid (1/2) [("watt", JsVal.num v)] none none "watt" = false := by
  have h1 : getF [("watt", JsVal.num v)] "watt" = JsVal.num v := rfl
  have h2 : getF [("watt", JsVal.num v)] "enhanced_speed" = JsVal.undef := rfl
  rw [kalmanInvalid]
  simp only [h1, h2]
  simp [hv, valLt]

theorem kalmanLoop_first_step (v : ℚ) (hv : 0 < v) (rest : List DataPoint) :
    kalmanLoop "watt" (1/2) ⟨v, 1, 1/20, 1⟩ none none ([("watt", JsVal.num v)] :: rest) =
      ([("watt", JsVal.num v), ("watt_filtered", JsVal.num v)] ::
         (kalmanLoop "watt" (1/2) ⟨v, 21/41, 1/20, 1⟩
           (some [("watt", JsVal.num v), ("watt_filtered", JsVal.num v)]) none rest).1,
       (⟨v, 21/41, 1/20, 1⟩ : KalmanState) ::
         (kalmanLoop "watt" (1/2) ⟨v, 21/41, 1/20, 1⟩
           (some [("watt", JsVal.num v), ("watt_filtered", JsVal.num v)]) none rest).2) := by
  have hst : (KalmanState.predict ⟨v, 1, 1/20, 1⟩).updateValid
      (numOf (getF [("watt", JsVal.num v)] "watt")) = (⟨v, 21/41, 1/20, 1⟩ : KalmanState) := by
    show KalmanState.updateValid ⟨v, 1 + 1/20, 1/20, 1⟩ v = _
    rw [KalmanState.updateValid]
    rw [KalmanState.mk.injEq]
    refine ⟨by ring, by norm_num, rfl, rfl⟩
  rw [kalmanLoop]
  simp only [kalmanInvalid_first v (ne_of_gt hv), Bool.false_eq_true, if_false, hst]
  rfl

theorem applyKalman_coast (v : ℚ) (hv : 0 < v) (n : Nat) :
    applyKalmanFilter (kalmanCoastData v n) ["watt"] (1/2) =
      [("watt", JsVal.num v), ("watt_filtered", JsVal.num v)] :: List.replicate n (coastRec v) := by
  rw [applyKalmanFilter, kalmanCoastData]
  rw [if_neg (by simp)]
  have hfind : (([("watt", JsVal.num v)] :: List.replicate n ([] : DataPoint)).find? (fun d =>
      match getF d "watt" with
      | JsVal.num q => decide (0 < q)
      | _ => false)) = some [("watt", JsVal.num v)] := by
    apply List.find?_cons_of_pos
    show decide (0 < v) = true
    exact decide_eq_true hv
  rw [List.foldl_cons, List.foldl_nil, hfind]
  show (kalmanLoop "watt" (1/2) ⟨v, 1, 1/20, 1⟩ none none
      ([("watt", JsVal.num v)] :: List.replicate n ([] : DataPoint))).1 = _
  rw [kalmanLoop_first_step v hv]
  show _ :: (kalmanLoop "watt" (1/2) ⟨v, 21/41, 1/20, 1⟩ _ none
      (List.replicate n ([] : DataPoint))).1 = _
  rw [kalmanLoop_coast_fst n]

theorem kalmanCoastStates_eq (v : ℚ) (hv : 0 < v) (n : Nat) (i : Nat) (hi : 1 ≤ i)
    (hin : i ≤ n) :
    (kalmanCoastStates v n).getD i ⟨0, 0, 0, 0⟩
      = ⟨v, 21/41 + (i : ℚ) * (1/20), 1/20, 1⟩ := by
  rw [kalmanCoastStates, kalmanCoastData, kalmanLoop_first_step v hv]
  obtain ⟨j, rfl⟩ : ∃ j, i = j + 1 := ⟨i - 1, by omega⟩
  show (kalmanLoop "watt" (1/2) ⟨v, 21/41, 1/20, 1⟩
      (some [("watt", JsVal.num v), ("watt_filtered", JsVal.num v)]) none
      (List.replicate n ([] : DataPoint))).2.getD j ⟨0, 0, 0, 0⟩ = _
  rw [kalmanLoop_coast_states n _ _ _ j (by omega)]
  rw [KalmanState.mk.injEq]
  refine ⟨rfl, ?_, rfl, rfl⟩
  push_cast
  ring

/-- C9: on an input whose first record holds a valid positive watt value
and whose remaining `n` records are all missing, `applyKalmanFilter` does
not throw (it is total and returns `n + 1` records), every subsequent
point is replaced by the filter's coasted prediction `v` and flagged
corrected, and across the missing tail the error covariance `P` grows by
exactly the process noise `Q = 0.05` per step — it never decreases. -/
theorem applyKalmanFilter_coasts (v : ℚ) (n : Nat) (hv : 0 < v) :
    (applyKalmanFilter (kalmanCoastData v n) ["watt"] (1/2)).length = n + 1 ∧
    (∀ i, 1 ≤ i → i ≤ n →
      getF (getRec (applyKalmanFilter (kalmanCoastData v n) ["watt"] (1/2)) i) "watt"
          = JsVal.num v ∧
      isCorrectedPoint (applyKalmanFilter (kalmanCoastData v n) ["watt"] (1/2)) i "watt"
          = true) ∧
    (∀ i, 1 ≤ i → i + 1 ≤ n →
      ((kalmanCoastStates v n).getD (i+1) ⟨0, 0, 0, 0⟩).P
          = ((kalmanCoastStates v n).getD i ⟨0, 0, 0, 0⟩).P + 1/20 ∧
      ((kalmanCoastStates v n).getD i ⟨0, 0, 0, 0⟩).P
          ≤ ((kalmanCoastStates v n).getD (i+1) ⟨0, 0, 0, 0⟩).P) := by
  rw [applyKalman_coast v hv n]
  refine ⟨by simp, ?_, ?_⟩
  · intro i h1 h2
    obtain ⟨j, rfl⟩ : ∃ j, i = j + 1 := ⟨i - 1, by omega⟩
    have hrec : getRec ([("watt", JsVal.num v), ("watt_filtered", JsVal.num v)] ::
        List.replicate n (coastRec v)) (j+1) = coastRec v := by
      rw [getRec_cons_succ, getRec, List.getD_eq_getElem?_getD, List.getElem?_replicate,
          if_pos (by omega)]
      rfl
    refine ⟨by rw [hrec]; rfl, ?_⟩
    rw [isCorrectedPoint, if_pos (by simp; omega)]
    rw [hrec]
    rfl
  · intro i h1 h2
    rw [kalmanCoastStates_eq v hv n (i+1) (by omega) (by omega),
        kalmanCoastStates_eq v hv n i h1 (by omega)]
    have h0 : (0 : ℚ) ≤ (i : ℚ) := by positivity
    constructor
    · dsimp only
      push_cast
      ring
    · dsimp only
      push_cast
      linarith

/-- Witness for `applyKalmanFilter_coasts` at `v = 100`, `n = 3`. -/
theorem applyKalmanFilter_coasts_witness :
    (0 : ℚ) < 100 ∧
    ((applyKalmanFilter (kalmanCoastData 100 3) ["watt"] (1/2)).length = 3 + 1 ∧
     (∀ i, 1 ≤ i → i ≤ 3 →
       getF (getRec (applyKalmanFilter (kalmanCoastData 100 3) ["watt"] (1/2)) i) "watt"
           = JsVal.num 100 ∧
       isCorrectedPoint (applyKalmanFilter (kalmanCoastData 100 3) ["watt"] (1/2)) i "watt"
           = true) ∧
     (∀ i, 1 ≤ i → i + 1 ≤ 3 →
       ((kalmanCoastStates 100 3).getD (i+1) ⟨0, 0, 0, 0⟩).P
           = ((kalmanCoastStates 100 3).getD i ⟨0, 0, 0, 0⟩).P + 1/20 ∧
       ((kalmanCoastStates 100 3).getD i ⟨0, 0, 0, 0⟩).P
           ≤ ((kalmanCoastStates 100 3).getD (i+1) ⟨0, 0, 0, 0⟩).P)) :=
  ⟨by norm_num, applyKalmanFilter_coasts 100 3 (by norm_num)⟩

/-! ## C6 (amended): the zone-coverage identity -/

theorem list_sum_add_q {α : Type} (l : List α) (f g : α → ℚ) :
    (l.map (fun x => f x + g x)).sum = (l.map f).sum + (l.map g).sum := by
  induction l with
  | nil => simp
  | cons x t ih => simp [ih]; ring

theorem list_sum_mul_q {α : Type} (l : List α) (d : ℚ) (f : α → ℚ) :
    (l.map (fun x => d * f x)).sum = d * (l.map f).sum := by
  induction l with
  | nil => simp
  | cons x t ih => simp [ih]; ring

theorem list_sum_cast_q {α : Type} (l : List α) (f : α → ℕ) :
    (l.map (fun x => ((f x : ℕ) : ℚ))).sum = (((l.map f).sum : ℕ) : ℚ) := by
  induction l with
  | nil => simp
  | cons x t ih => simp [ih]

theorem list_sum_div_mul_q {α : Type} (l : List α) (f : α → ℚ) (T c : ℚ) :
    (l.map (fun x => f x / T * c)).sum = (l.map f).sum / T * c := by
  induction l with
  | nil => simp
  | cons x t ih => simp [ih]; ring

theorem zoneBump_apply (zones : List IZone) (v d : ℚ) (fn : String → ℚ) (n : String) :
    zoneBump zones v d fn n =
      fn n + d * (((zones.filter
        (fun z => zoneContains z v && decide (z.name = n))).length : ℕ) : ℚ) := by
  induction zones generalizing fn with
  | nil => simp [zoneBump]
  | cons z zs ih =>
    show zoneBump zs v d _ n = _
    rw [ih]
    by_cases hc : zoneContains z v
    · by_cases hn : n = z.name
      · subst hn
        simp only [hc, if_pos rfl, List.filter_cons, decide_True, Bool.and_true,
          if_pos hc, List.length_cons]
        simp only [if_true]
        rw [List.length_cons]
        push_cast
        ring
      · have hzn : ¬ z.name = n := fun he => hn he.symm
        simp only [hc, if_true, if_neg hn, List.filter_cons, hzn, decide_False,
          Bool.and_false, if_neg]
        simp [hzn]
    · simp only [List.filter_cons]
      have : (zoneContains z v && decide (z.name = n)) = false := by
        simp [hc]
      rw [this]
      simp [hc]

theorem list_sum_add_n {α : Type} (l : List α) (f g : α → ℕ) :
    (l.map (fun x => f x + g x)).sum = (l.map f).sum + (l.map g).sum := by
  induction l with
  | nil => simp
  | cons x t ih => simp [ih]; omega

theorem filter_name_nil {zs : List IZone} {n : String} (v : ℚ)
    (hn : n ∉ zs.map IZone.name) :
    (zs.filter (fun u => zoneContains u v && decide (u.name = n))).length = 0 := by
  rw [List.length_eq_zero, List.filter_eq_nil]
  intro u hu
  have : u.name ≠ n := fun he => hn (he ▸ List.mem_map_of_mem IZone.name hu)
  simp [this]

theorem sum_matchCount (v : ℚ) : ∀ (zones : List IZone),
    (zones.map IZone.name).Nodup →
    (zones.map (fun z =>
        (zones.filter (fun w => zoneContains w v && decide (w.name = z.name))).length)).sum
      = (zones.filter (fun w => zoneContains w v)).length := by
  intro zones
  induction zones with
  | nil => simp
  | cons w zs ih =>
    intro hnd
    rw [List.map_cons] at hnd
    have hw : w.name ∉ zs.map IZone.name := (List.nodup_cons.mp hnd).1
    have hnd' : (zs.map IZone.name).Nodup := (List.nodup_cons.mp hnd).2
    rw [List.map_cons, List.sum_cons]
    have hhead : ((w :: zs).filter
        (fun u => zoneContains u v && decide (u.name = w.name))).length
        = (if zoneContains w v then 1 else 0) := by
      rw [List.filter_cons]
      by_cases hc : zoneContains w v
      · simp only [hc, decide_True, Bool.and_true, if_true, List.length_cons,
          filter_name_nil v hw, if_pos hc]
      · have : (zoneContains w v && decide (w.name = w.name)) = false := by simp [hc]
        rw [this]
        simp [hc, filter_name_nil v hw]
    have htail : ∀ z ∈ zs, ((w :: zs).filter
        (fun u => zoneContains u v && decide (u.name = z.name))).length
        = (zs.filter (fun u => zoneContains u v && decide (u.name = z.name))).length := by
      intro z hz
      rw [List.filter_cons]
      have hne : ¬ w.name = z.name := by
        intro he
        exact hw (he ▸ List.mem_map_of_mem IZone.name hz)
      have : (zoneContains w v && decide (w.name = z.name)) = false := by simp [hne]
      rw [this]
      simp
    rw [List.map_congr_left htail, ih hnd', hhead, List.filter_cons]
    by_cases hc : zoneContains w v
    · simp only [hc, decide_True, if_true, List.length_cons]
      omega
    · simp [hc]

theorem sum_zoneBump (zones : List IZone) (v d : ℚ) (fn : String → ℚ)
    (hnd : (zones.map IZone.name).Nodup)
    (hone : (zones.filter (fun z => zoneContains z v)).length = 1) :
    (zones.map (fun z => zoneBump zones v d fn z.name)).sum
      = (zones.map (fun z => fn z.name)).sum + d := by
  have h1 : (zones.map (fun z => zoneBump zones v d fn z.name))
      = zones.map (fun z => fn z.name + d * (((zones.filter
          (fun w => zoneContains w v && decide (w.name = z.name))).length : ℕ) : ℚ)) :=
    List.map_congr_left (fun z _ => zoneBump_apply zones v d fn z.name)
  rw [h1, list_sum_add_q, list_sum_mul_q, list_sum_cast_q, sum_matchCount v zones hnd, hone]
  norm_num

theorem zoneWalk_sum (zones : List IZone) (hnd : (zones.map IZone.name).Nodup) :
    ∀ (p : TimeSeriesPoint) (ps : List TimeSeriesPoint) (prev : ℚ) (fn : String → ℚ),
      (∀ q ∈ p :: ps, (zones.filter (fun z => zoneContains z q.value)).length = 1) →
      (zones.map (fun z =>
          ((p :: ps).foldl (fun st point =>
            (point.timer_time,
             zoneBump zones point.value (point.timer_time - st.1) st.2)) (prev, fn)).2 z.name)).sum
        = (zones.map (fun z => fn z.name)).sum + ((ps.getLastD p).timer_time - prev) := by
  intro p ps
  induction ps generalizing p with
  | nil =>
    intro prev fn hone
    rw [List.foldl_cons, List.foldl_nil]
    exact sum_zoneBump zones p.value (p.timer_time - prev) fn hnd
      (hone p (by simp))
  | cons q qs ih =>
    intro prev fn hone
    rw [List.foldl_cons]
    have := ih q p.timer_time (zoneBump zones p.value (p.timer_time - prev) fn)
      (fun r hr => hone r (by simp at hr ⊢; tauto))
    rw [List.foldl_cons] at this ⊢
    rw [this]
    rw [sum_zoneBump zones p.value (p.timer_time - prev) fn hnd (hone p (by simp))]
    rw [List.getLastD_cons]
    ring

theorem zoneWalk_sum_total (zones : List IZone) (hnd : (zones.map IZone.name).Nodup)
    (p0 : TimeSeriesPoint) (rest : List TimeSeriesPoint)
    (hone : ∀ q ∈ p0 :: rest, (zones.filter (fun z => zoneContains z q.value)).length = 1) :
    (zones.map (fun z => (zoneWalk zones (p0 :: rest)).2 z.name)).sum
      = (rest.getLastD p0).timer_time := by
  have h2 : (zones.map (fun z => (zoneWalk zones (p0 :: rest)).2 z.name)).sum
      = (zones.map (fun _ => (0 : ℚ))).sum + ((rest.getLastD p0).timer_time - 0) :=
    zoneWalk_sum zones hnd p0 rest 0 (fun _ => 0) hone
  rw [h2]
  simp

/-- C6 (amended): for a series with at least 2 points *whose first point
has `timer_time` 0* (and nonzero last time), and a zone table with
pairwise-distinct names in which every observed value lies in exactly one
zone, the percentages of `calculateZoneDistribution` sum to exactly 100 in
exact arithmetic.  In general the claim fails: `previousDuration` starts at
0, so the first point contributes its absolute `timer_time` rather than 0
(see `zone_coverage_cx`), and the identity holds only when that
contribution vanishes. -/
theorem zone_coverage_identity (p0 : TimeSeriesPoint) (rest : List TimeSeriesPoint)
    (zones : List IZone)
    (h0 : p0.timer_time = 0)
    (hlast : (rest.getLastD p0).timer_time ≠ 0)
    (hnd : (zones.map IZone.name).Nodup)
    (hone : ∀ q ∈ p0 :: rest, (zones.filter (fun z => zoneContains z q.value)).length = 1) :
    (calculateZoneDistribution (p0 :: rest) zones).map
        (fun items => (items.map IZoneDistributionItem.percentage).sum) = some 100 := by
  simp only [calculateZoneDistribution, Option.map_some', Option.some.injEq,
    List.map_map, Function.comp]
  show (zones.map (fun z => (zoneWalk zones (p0 :: rest)).2 z.name /
      (((p0 :: rest).getLastD p0).timer_time - p0.timer_time) * 100)).sum = 100
  rw [list_sum_div_mul_q zones (fun z => (zoneWalk zones (p0 :: rest)).2 z.name)
      (((p0 :: rest).getLastD p0).timer_time - p0.timer_time) 100]
  rw [zoneWalk_sum_total zones hnd p0 rest hone]
  rw [List.getLastD_cons, h0, sub_zero, div_self hlast]
  norm_num

/-- Witness for `zone_coverage_identity`: two points at times 0 and 10 with
a single zone exactly covering the observed value. -/
theorem zone_coverage_identity_witness :
    (calculateZoneDistribution [⟨0, 10⟩, ⟨10, 10⟩] [⟨10, .fin 10, "A"⟩]).map
        (fun items => (items.map IZoneDistributionItem.percentage).sum) = some 100 :=
  zone_coverage_identity ⟨0, 10⟩ [⟨10, 10⟩] [⟨10, .fin 10, "A"⟩] rfl
    (of_decide_eq_true (by with_unfolding_all rfl))
    (of_decide_eq_true (by with_unfolding_all rfl))
    (of_decide_eq_true (by with_unfolding_all rfl))
